import Mathlib

/-!
# obs::Subject<void(int)> : a publish/subscribe registry

Shallow embedding of `src/observeur.hpp` (the class template `obs::Subject`, at the
signature `void(int)` that its closures fix) and of the scenario of `src/main.cpp`.

* `id_type` is `std::uint32_t`: a natural number, reduced modulo `2^32` where the code
  does arithmetic on it (only `getId`).
* `getId` owns a function-local `static` counter.  It is program state shared by every
  instance of the specialisation, so it is passed explicitly, apart from the `Subject`.
* `std::function<void(int)>` values are defunctionalised: the two closures built by
  the header (`raw`, `weak`), callables handed in by the caller (`fn`) and the empty
  `std::function` (`empty`), whose call throws `std::bad_function_call`.
* `std::unordered_multimap` is a list of pairs in iteration order (`cbegin` first).
  The standard leaves that order open and implementations differ; `insert` is modelled
  as putting the new pair in front, the order in which `main.cpp` lists its expected
  output.  Statements about the entries a pass calls do not rest on that choice: they
  are made for every registry, hence for every order, or for every arrangement of the
  registry that `subscribe` gives, and examples whose outcome could depend on the order
  are given for both orders of the pairs concerned.
* The heap of `std::make_shared` objects is a table of strong reference counts; an
  object is destroyed when its count reaches zero.
* Code supplied by the caller (callable bodies, methods) records that it ran, and
  either returns or throws, as the parameter `throws` says.  It does not touch the
  registry or the handles: what a callable does to them during a pass is left open by
  the header.
-/

namespace obs

/-! ## Data model -/

/-- The type `using id_type = std::uint32_t`. -/
abbrev id_type := Nat

/-- Number of values of `std::uint32_t`. -/
def UINT32_SIZE : Nat := 2 ^ 32

/-- The argument pack `Args...`, which the closures of the header fix to one `int`. -/
abbrev Arg := Int

/-- Name of a member function, as in `&Toto::fn0`. -/
abbrev Method := Nat

/-- Address of an object: one with automatic storage (`Toto t0;`) or the object owned by
the `n`-th control block created by `std::make_shared`. -/
inductive Ptr where
  | automatic (n : Nat)
  | managed (n : Nat)
  deriving DecidableEq, Repr

/-- One run of caller code: the body of a callable given to `subscribe`, or a member
function run on an object. -/
inductive Call where
  | fn (f : Nat) (i : Arg)
  | method (object : Ptr) (method : Method) (i : Arg)
  deriving DecidableEq, Repr

/-- The values of `observer_type = std::function<void(int)>` that reach `m_observers`:
* `empty`: a `std::function` without target, which `subscribe` stores as any other;
* `fn f`: a callable of the caller, named `f`;
* `raw object method`: `[=](int i){std::invoke(method,object,i);}`;
* `weak object method`:
  `[=](int i){if(auto shared_object = object.lock()){std::invoke(method,shared_object,i);}}`
  where `object` is a `std::weak_ptr` on control block `object`. -/
inductive observer_type where
  | empty
  | fn (f : Nat)
  | raw (object : Ptr) (method : Method)
  | weak (object : Nat) (method : Method)
  deriving DecidableEq, Repr

/-- An element of `m_observers`: `std::pair<const id_type, observer_type>`. -/
abbrev Entry := id_type × observer_type

/-- State outside the registry.
* `use_count`: strong reference count of each control block (absent means `0`);
* `invoked`: ghost trace of the `pair.second(args...)` calls made by `operator()`;
* `out`: trace of the caller code that actually ran. -/
structure World where
  use_count : List Nat
  invoked : List (Entry × Arg)
  out : List Call
  deriving DecidableEq, Repr

/-- The class `Subject<void(Args...)>`: its one data member. -/
structure Subject where
  m_observers : List Entry
  deriving DecidableEq, Repr

/-- The default constructor `Subject() = default`: `m_observers{}`. -/
def Subject.empty : Subject := ⟨[]⟩

/-! ## Shared and weak handles -/

/-- Strong count of control block `h`: `use_count()`. -/
def World.strong (w : World) (h : Nat) : Nat := w.use_count.getD h 0

/-- The call `std::make_shared<Class>()`: a new control block with one strong owner. -/
def World.make_shared (w : World) : Nat × World :=
  (w.use_count.length, { w with use_count := w.use_count ++ [1] })

/-- A new strong owner of `h` (copy of a `shared_ptr`, successful `lock`). -/
def World.acquire (w : World) (h : Nat) : World :=
  { w with use_count := w.use_count.set h (w.strong h + 1) }

/-- A strong owner of `h` goes away (`shared_ptr` destructor). -/
def World.release (w : World) (h : Nat) : World :=
  { w with use_count := w.use_count.set h (w.strong h - 1) }

/-- The call `weak_ptr::lock()`: a strong handle if the object still exists. -/
def World.lock (w : World) (h : Nat) : Option World :=
  if 0 < w.strong h then some (w.acquire h) else none

/-! ## Caller code -/

/-- Run caller code `c`: it is recorded in `out`, then returns (`ok`) or throws
(`error`), carrying the state at that point. -/
def run (throws : Call → Bool) (c : Call) (w : World) : Except World World :=
  let w1 := { w with out := w.out ++ [c] }
  if throws c then .error w1 else .ok w1

/-- The strong handle `shared_object` goes out of scope, on return or on unwinding. -/
def releaseAfter (h : Nat) : Except World World → Except World World
  | .ok w => .ok (w.release h)
  | .error w => .error (w.release h)

/-- The call `observer(i)` of a stored callable.  The call of an empty `std::function`
throws `std::bad_function_call`. -/
def observer_type.call (throws : Call → Bool) (o : observer_type) (i : Arg) (w : World) :
    Except World World :=
  match o with
  | .empty => .error w
  | .fn f => run throws (.fn f i) w
  | .raw object method => run throws (.method object method i) w
  | .weak object method =>
    match w.lock object with
    | some w1 => releaseAfter object (run throws (.method (.managed object) method i) w1)
    | none => .ok w

/-! ## The static counter -/

/-- The function `static id_type getId() { static id_type id {}; return id++; }` on the
value `id` of the static: the value returned and the new value of the static. -/
def getId (id : id_type) : id_type × id_type := (id, (id + 1) % UINT32_SIZE)

/-- Value of the static `id` when the program starts. -/
def getId_init : id_type := 0

/-! ## Member functions -/

/-- The overload `subscribe(const observer_type& observer, const id_type& id)`.  The place
of the new pair in the iteration order is the implementation's; here it is the front. -/
def Subject.subscribe (s : Subject) (observer : observer_type) (id : id_type) :
    id_type × Subject :=
  (id, { m_observers := (id, observer) :: s.m_observers })

/-- The overload `subscribe(Class* object, member_signature_type<Class> method, id)`. -/
def Subject.subscribe_ptr (s : Subject) (object : Ptr) (method : Method) (id : id_type) :
    id_type × Subject :=
  s.subscribe (.raw object method) id

/-- The overload `subscribe(const std::weak_ptr<Class>& object, method, id)`. -/
def Subject.subscribe_weak (s : Subject) (object : Nat) (method : Method) (id : id_type) :
    id_type × Subject :=
  s.subscribe (.weak object method) id

/-- The overload `subscribe(const std::shared_ptr<Class>& object, method, id)`:
`return subscribe(std::weak_ptr(object), method, id);`. -/
def Subject.subscribe_shared (s : Subject) (object : Nat) (method : Method) (id : id_type) :
    id_type × Subject :=
  s.subscribe_weak object method id

/-- The member `unsubscribe`: `m_observers.erase(key)` removes every pair with that key. -/
def Subject.unsubscribe (s : Subject) (key : id_type) : Subject :=
  { m_observers := s.m_observers.filter (fun pair => pair.1 ≠ key) }

/-- The member `clear`: `m_observers.clear()`. -/
def Subject.clear (_s : Subject) : Subject :=
  { m_observers := [] }

/-- The loop `std::for_each(first, last, [&](const auto& pair){ pair.second(args...); })`:
an exception leaves the loop. -/
def for_each (throws : Call → Bool) (args : Arg) : List Entry → World → Except World World
  | [], w => .ok w
  | pair :: rest, w =>
    match pair.2.call throws args { w with invoked := w.invoked ++ [(pair, args)] } with
    | .ok w1 => for_each throws args rest w1
    | .error w1 => .error w1

/-- The member `void operator()(const Args&... args) const`. -/
def Subject.notify (throws : Call → Bool) (s : Subject) (args : Arg) (w : World) :
    Except World World :=
  for_each throws args s.m_observers w

/-- The state in which a call ended, returned or thrown. -/
def final : Except World World → World
  | .ok w => w
  | .error w => w

/-- Whether a call returned. -/
def returned : Except World World → Bool
  | .ok _ => true
  | .error _ => false

/-! ## Calls that leave the identifier out -/

/-- The arguments of a `subscribe` call before `id`, one form per overload. -/
inductive Subscriber where
  | observer (observer : observer_type)
  | ptr (object : Ptr) (method : Method)
  | shared (object : Nat) (method : Method)
  | weak (object : Nat) (method : Method)
  deriving DecidableEq, Repr

/-- Overload resolution of `subject.subscribe(..., id)`. -/
def Subject.subscribe_with (s : Subject) (a : Subscriber) (id : id_type) : id_type × Subject :=
  match a with
  | .observer observer => s.subscribe observer id
  | .ptr object method => s.subscribe_ptr object method id
  | .shared object method => s.subscribe_shared object method id
  | .weak object method => s.subscribe_weak object method id

/-- A call `subject.subscribe(...)` without `id`: the caller evaluates the default
argument `getId()` once, on the static whose value is `static_id`, and passes the
result.  Gives the identifier returned, the registry and the new value of the static. -/
def Subject.subscribe_default (s : Subject) (a : Subscriber) (static_id : id_type) :
    id_type × Subject × id_type :=
  let (id, static_id1) := getId static_id
  let (ret, s1) := s.subscribe_with a id
  (ret, s1, static_id1)

/-- A sequence of calls without `id` on one `Subject`: the identifiers returned, in call
order, the registry and the static at the end. -/
def subscribe_all : List Subscriber → Subject → id_type → List id_type × Subject × id_type
  | [], s, static_id => ([], s, static_id)
  | a :: rest, s, static_id =>
    let (ret, s1, static_id1) := s.subscribe_default a static_id
    let (rets, s2, static_id2) := subscribe_all rest s1 static_id1
    (ret :: rets, s2, static_id2)

/-! ## What a pass does, read off the registry -/

/-- The caller code that one call of the stored callable `o` runs, if any. -/
def observer_type.effect (o : observer_type) (i : Arg) (w : World) : Option Call :=
  match o with
  | .empty => none
  | .fn f => some (.fn f i)
  | .raw object method => some (.method object method i)
  | .weak object method =>
    if 0 < w.strong object then some (.method (.managed object) method i) else none

/-- The `pair.second(args...)` calls made between state `w0` and the later state `w1`. -/
def invocations (w0 w1 : World) : List (Entry × Arg) := w1.invoked.drop w0.invoked.length

/-- The caller code run between state `w0` and the later state `w1`. -/
def ran (w0 w1 : World) : List Call := w1.out.drop w0.out.length

/-- Whether one call of the stored callable `o` leaves with an exception:
`std::bad_function_call` for an empty `std::function`, otherwise what the caller code
it runs throws. -/
def observer_type.fails (throws : Call → Bool) (o : observer_type) (i : Arg) (w : World) :
    Bool :=
  match o with
  | .empty => true
  | .fn f => throws (.fn f i)
  | .raw object method => throws (.method object method i)
  | .weak object method =>
    if 0 < w.strong object then throws (.method (.managed object) method i) else false

/-- No call of a callable of `l` with `args` from state `w` leaves with an exception: none
of them is an empty `std::function` and no caller code that they run throws. -/
def NoThrow (throws : Call → Bool) (l : List Entry) (args : Arg) (w : World) : Prop :=
  ∀ e ∈ l, e.2.fails throws args w = false

/-! ## The scenario of `main.cpp` -/

/-- The member functions of `struct Toto`; each one only prints its name. -/
def Toto.fn0 : Method := 0
def Toto.fn1 : Method := 1
def Toto.fn2 : Method := 2
def Toto.fn3 : Method := 3
def Toto.fn4 : Method := 4
def Toto.fn5 : Method := 5
def Toto.fn6 : Method := 6

/-- The lambda of `main`, which only prints `lambda`. -/
def lambda : Nat := 0

/-- The function `main` up to and including `subject(8)`, started with no heap object
and the static of `getId` at its initial value.  None of the code it subscribes throws.
The blocks around `fn1` and `fn3` end with the destruction of their `shared_ptr t`;
`t0`, `t1`, `t2` live to the end of `main`. -/
def main : Except World World :=
  let w : World := ⟨[], [], []⟩
  let subject := Subject.empty
  let t0 : Ptr := .automatic 0
  let (_, subject, static_id) := subject.subscribe_default (.observer (.fn lambda)) getId_init
  let (_, subject, static_id) := subject.subscribe_default (.ptr t0 Toto.fn0) static_id
  let (t, w) := w.make_shared
  let (_, subject, static_id) := subject.subscribe_default (.shared t Toto.fn1) static_id
  let w := w.release t
  let (t1, w) := w.make_shared
  let (_, subject, static_id) := subject.subscribe_default (.shared t1 Toto.fn2) static_id
  let (t, w) := w.make_shared
  let (_, subject, static_id) := subject.subscribe_default (.weak t Toto.fn3) static_id
  let w := w.release t
  let (t2, w) := w.make_shared
  let (id, subject, _) := subject.subscribe_default (.shared t2 Toto.fn4) static_id
  let subject := subject.unsubscribe id
  let id := 100
  let (_, subject) := subject.subscribe_with (.shared t2 Toto.fn5) id
  let (_, subject) := subject.subscribe_with (.shared t2 Toto.fn6) id
  let subject := subject.unsubscribe id
  subject.notify (fun _ => false) 8 w

/-! ## Programs over one `Subject` -/

/-- One statement of a caller on its `Subject`. -/
inductive Op where
  | subscribe (a : Subscriber)
  | subscribe_id (a : Subscriber) (id : id_type)
  | unsubscribe (key : id_type)
  | clear
  | notify (args : Arg)
  deriving DecidableEq, Repr

/-- Whether the statement calls `getId()`: a `subscribe` that leaves `id` out. -/
def Op.generates : Op → Bool
  | .subscribe _ => true
  | _ => false

/-- State of a program around one `Subject`: the static of `getId`, the registry and the
state outside it. -/
structure Program where
  static_id : id_type
  subject : Subject
  world : World
  deriving DecidableEq, Repr

/-- One statement.  A `subscribe` also gives the identifier it returned, marked `true`
when `getId()` made it and `false` when the caller passed it.  An exception that leaves
`notify` is caught by the caller, who goes on from the state it left. -/
def Op.exec (throws : Call → Bool) (op : Op) (p : Program) :
    Option (id_type × Bool) × Program :=
  match op with
  | .subscribe a =>
    let (ret, s1, static_id1) := p.subject.subscribe_default a p.static_id
    (some (ret, true), { p with static_id := static_id1, subject := s1 })
  | .subscribe_id a id =>
    let (ret, s1) := p.subject.subscribe_with a id
    (some (ret, false), { p with subject := s1 })
  | .unsubscribe key => (none, { p with subject := p.subject.unsubscribe key })
  | .clear => (none, { p with subject := p.subject.clear })
  | .notify args => (none, { p with world := final (p.subject.notify throws args p.world) })

/-- A sequence of statements: the identifiers returned by its `subscribe` calls, in call
order, and the state at the end. -/
def exec_all (throws : Call → Bool) : List Op → Program → List (id_type × Bool) × Program
  | [], p => ([], p)
  | op :: rest, p =>
    let (r, p1) := op.exec throws p
    let (rs, p2) := exec_all throws rest p1
    (r.toList ++ rs, p2)

/-- The identifiers that `getId()` made, among those returned. -/
def generated (log : List (id_type × Bool)) : List id_type :=
  (log.filter (fun r => r.2)).map (fun r => r.1)

/-! ## Two instances of one specialisation -/

/-- Calls of `subscribe` without `id` on two `Subject<void(int)>` objects, which share
the static of `getId`; `true` picks the first object.  Gives the identifiers returned,
in call order, the two registries and the static at the end. -/
def subscribe_across : List (Bool × Subscriber) → Subject × Subject → id_type →
    List id_type × (Subject × Subject) × id_type
  | [], ss, static_id => ([], ss, static_id)
  | (first, a) :: rest, ss, static_id =>
    if first then
      let (ret, s1, static_id1) := ss.1.subscribe_default a static_id
      let (rets, ss2, static_id2) := subscribe_across rest (s1, ss.2) static_id1
      (ret :: rets, ss2, static_id2)
    else
      let (ret, s1, static_id1) := ss.2.subscribe_default a static_id
      let (rets, ss2, static_id2) := subscribe_across rest (ss.1, s1) static_id1
      (ret :: rets, ss2, static_id2)

/-! ## Calls of `getId` -/

/-- The static of `getId` after `n` calls since the program started. -/
def getId_static : Nat → id_type
  | 0 => getId_init
  | n + 1 => (getId (getId_static n)).2

/-- The value returned by call number `n` of `getId`, counting from `0`. -/
def getId_call (n : Nat) : id_type := (getId (getId_static n)).1

end obs

namespace obs

/-! ## Lemmas on handles and stored callables -/

theorem set_getD_restore (l : List Nat) (h : Nat) (hs : 0 < l.getD h 0) :
    (l.set h (l.getD h 0 + 1)).set h ((l.set h (l.getD h 0 + 1)).getD h 0 - 1) = l := by
  have hlt : h < l.length := by
    by_contra hc
    have hnone : l[h]? = none := List.getElem?_eq_none (Nat.le_of_not_lt hc)
    simp [List.getD_eq_getElem?_getD, hnone] at hs
  have h1 : (l.set h (l.getD h 0 + 1)).getD h 0 = l.getD h 0 + 1 := by
    simp [List.getD_eq_getElem?_getD, List.getElem?_set, hlt]
  rw [h1, List.set_set]
  simp only [Nat.add_sub_cancel]
  apply List.ext_getElem (by simp)
  intro n h1 h2
  simp [List.getElem_set]
  intro hn
  subst hn
  simp [List.getD_eq_getElem?_getD, hlt]

/-- A successful `lock` followed by the destruction of the temporary strong handle
leaves every reference count as it was, whatever the method did to `out`. -/
theorem releaseAfter_run_acquire (throws : Call → Bool) (c : Call) (w : World) (h : Nat)
    (hs : 0 < w.strong h) :
    releaseAfter h (run throws c (w.acquire h)) = run throws c w := by
  have hr := set_getD_restore w.use_count h hs
  unfold run
  by_cases ht : throws c = true
  · simp [ht, releaseAfter, World.release, World.acquire, World.strong] at hr ⊢
    exact hr
  · simp [ht, releaseAfter, World.release, World.acquire, World.strong] at hr ⊢
    exact hr

/-- One call of a stored callable runs the caller code `effect` names, leaves with an
exception exactly when `fails` says so, and changes nothing else. -/
theorem call_eq (throws : Call → Bool) (o : observer_type) (i : Arg) (w : World) :
    o.call throws i w =
      if o.fails throws i w then
        .error { w with out := w.out ++ (o.effect i w).toList }
      else .ok { w with out := w.out ++ (o.effect i w).toList } := by
  cases o with
  | empty => simp [observer_type.call, observer_type.fails, observer_type.effect]
  | fn f =>
    simp only [observer_type.call, observer_type.fails, observer_type.effect, run,
      Option.toList]
  | raw object method =>
    simp only [observer_type.call, observer_type.fails, observer_type.effect, run,
      Option.toList]
  | weak object method =>
    by_cases hs : 0 < w.strong object
    · have h := releaseAfter_run_acquire throws (Call.method (.managed object) method i)
        w object hs
      simp only [observer_type.call, World.lock, hs, if_true]
      rw [h]
      simp only [observer_type.fails, observer_type.effect, hs, if_true, run, Option.toList]
    · simp [observer_type.call, observer_type.fails, observer_type.effect, World.lock, hs]

/-- What a callable runs depends on the reference counts only. -/
theorem effect_congr (o : observer_type) (i : Arg) (w w1 : World)
    (h : w1.use_count = w.use_count) : o.effect i w1 = o.effect i w := by
  cases o <;> simp [observer_type.effect, World.strong, h]

/-- Whether a call fails depends on the reference counts only. -/
theorem fails_congr (throws : Call → Bool) (o : observer_type) (i : Arg) (w w1 : World)
    (h : w1.use_count = w.use_count) : o.fails throws i w1 = o.fails throws i w := by
  cases o <;> simp [observer_type.fails, World.strong, h]

/-- The call of a stored callable returns exactly when `fails` is `false`. -/
theorem returned_call (throws : Call → Bool) (o : observer_type) (i : Arg) (w : World) :
    returned (o.call throws i w) = !o.fails throws i w := by
  rw [call_eq]
  by_cases h : o.fails throws i w = true <;> simp [h, returned]

theorem run_use_count (throws : Call → Bool) (c : Call) (w : World) :
    (final (run throws c w)).use_count = w.use_count := by
  unfold run
  by_cases ht : throws c = true <;> simp [ht, final]

/-! ## Lemmas on a pass -/

theorem filterMap_effect_congr (args : Arg) (l : List Entry) (w w1 : World)
    (h : w1.use_count = w.use_count) :
    l.filterMap (fun e => e.2.effect args w1) = l.filterMap (fun e => e.2.effect args w) := by
  apply List.filterMap_congr
  intro x _
  exact effect_congr _ _ _ _ h

theorem NoThrow_congr (throws : Call → Bool) (l : List Entry) (args : Arg) (w w1 : World)
    (h : w1.use_count = w.use_count) (hno : NoThrow throws l args w) :
    NoThrow throws l args w1 := by
  intro e he
  rw [fails_congr throws e.2 args w w1 h]
  exact hno e he

theorem toList_append_filterMap (args : Arg) (w : World) (a : Entry) (l : List Entry) :
    (a.2.effect args w).toList ++ l.filterMap (fun e => e.2.effect args w)
      = (a :: l).filterMap (fun e => e.2.effect args w) := by
  rw [List.filterMap_cons]
  cases a.2.effect args w <;> rfl

/-- One step of a pass: the pair is called, what its callable runs is run, and the pass
goes on unless the call left with an exception. -/
theorem for_each_cons (throws : Call → Bool) (x : Arg) (a : Entry) (rest : List Entry)
    (w : World) :
    for_each throws x (a :: rest) w
      = if a.2.fails throws x w then
          .error { w with
            invoked := w.invoked ++ [(a, x)]
            out := w.out ++ (a.2.effect x w).toList }
        else
          for_each throws x rest { w with
            invoked := w.invoked ++ [(a, x)]
            out := w.out ++ (a.2.effect x w).toList } := by
  have hf : a.2.fails throws x { w with invoked := w.invoked ++ [(a, x)] }
      = a.2.fails throws x w := fails_congr _ _ _ _ _ rfl
  have he : a.2.effect x { w with invoked := w.invoked ++ [(a, x)] }
      = a.2.effect x w := effect_congr _ _ _ _ rfl
  simp only [for_each]
  rw [call_eq, hf, he]
  by_cases h : a.2.fails throws x w = true <;> simp [h]

/-- A pass in which no call fails returns, has called every pair once, in order, and has
run what each callable runs. -/
theorem for_each_ok (throws : Call → Bool) (args : Arg) (l : List Entry) (w : World)
    (h : NoThrow throws l args w) :
    for_each throws args l w = .ok { w with
      invoked := w.invoked ++ l.map (fun e => (e, args))
      out := w.out ++ l.filterMap (fun e => e.2.effect args w) } := by
  induction l generalizing w with
  | nil => simp [for_each]
  | cons e rest ih =>
    have he : e.2.fails throws args w = false := h e (List.mem_cons_self _ _)
    have hrest : NoThrow throws rest args w := fun a ha => h a (List.mem_cons_of_mem _ ha)
    rw [for_each_cons, he]
    simp only [Bool.false_eq_true, if_false]
    have hw : (⟨w.use_count, w.invoked ++ [(e, args)],
        w.out ++ (e.2.effect args w).toList⟩ : World).use_count = w.use_count := rfl
    rw [ih ⟨w.use_count, w.invoked ++ [(e, args)], w.out ++ (e.2.effect args w).toList⟩
        (NoThrow_congr throws rest args w _ hw hrest),
      filterMap_effect_congr args rest w _ hw]
    simp only [List.append_assoc, List.map_cons, List.singleton_append,
      toList_append_filterMap]

/-- Whatever fails, a pass calls the pairs of an initial segment of the registry, each
once, and runs nothing for the pairs after it. -/
theorem for_each_invoked (throws : Call → Bool) (args : Arg) (l : List Entry) (w : World) :
    ∃ k, k ≤ l.length ∧
      (final (for_each throws args l w)).invoked
        = w.invoked ++ (l.take k).map (fun e => (e, args)) ∧
      (final (for_each throws args l w)).out
        = w.out ++ (l.take k).filterMap (fun e => e.2.effect args w) ∧
      (final (for_each throws args l w)).use_count = w.use_count := by
  induction l generalizing w with
  | nil => exact ⟨0, by simp [for_each, final]⟩
  | cons e rest ih =>
    rw [for_each_cons]
    by_cases hf : e.2.fails throws args w = true
    · refine ⟨1, by simp, ?_, ?_, ?_⟩
      · simp [hf, final]
      · simp only [hf, if_true, final, List.take_succ_cons, List.take_zero]
        rw [← toList_append_filterMap]; simp
      · simp [hf, final]
    · simp only [hf, Bool.false_eq_true, if_false]
      have hw : (⟨w.use_count, w.invoked ++ [(e, args)],
          w.out ++ (e.2.effect args w).toList⟩ : World).use_count = w.use_count := rfl
      obtain ⟨k, hk, hi, ho, hu⟩ := ih
        ⟨w.use_count, w.invoked ++ [(e, args)], w.out ++ (e.2.effect args w).toList⟩
      refine ⟨k + 1, by simpa using hk, ?_, ?_, ?_⟩
      · rw [hi]; simp
      · rw [ho, filterMap_effect_congr args (rest.take k) w _ hw, List.take_succ_cons,
          ← toList_append_filterMap]
        simp
      · rw [hu]

/-- A pass returns exactly when no call of a callable of the registry fails. -/
theorem for_each_returned_iff (throws : Call → Bool) (args : Arg) (l : List Entry)
    (w : World) :
    returned (for_each throws args l w) = true ↔ NoThrow throws l args w := by
  induction l generalizing w with
  | nil => simp [for_each, returned, NoThrow]
  | cons e rest ih =>
    rw [for_each_cons]
    by_cases hf : e.2.fails throws args w = true
    · simp only [hf, if_true, returned]
      constructor
      · intro h; exact absurd h (by simp)
      · intro h
        have := h e (List.mem_cons_self _ _)
        rw [hf] at this
        exact absurd this (by simp)
    · simp only [hf, Bool.false_eq_true, if_false]
      rw [ih]
      constructor
      · intro h a ha
        rcases List.mem_cons.mp ha with rfl | ha
        · simpa using hf
        · rw [← fails_congr throws a.2 args w _ rfl]
          exact h a ha
      · intro h
        exact NoThrow_congr throws rest args w _ rfl
          (fun a ha => h a (List.mem_cons_of_mem _ ha))

/-- A pass over `l1 ++ l2` is a pass over `l1` followed, unless it threw, by a pass over
`l2`. -/
theorem for_each_append (throws : Call → Bool) (args : Arg) (l1 l2 : List Entry) (w : World) :
    for_each throws args (l1 ++ l2) w
      = match for_each throws args l1 w with
        | .ok w1 => for_each throws args l2 w1
        | .error w1 => .error w1 := by
  induction l1 generalizing w with
  | nil => rfl
  | cons e rest ih =>
    simp only [List.cons_append, for_each]
    cases e.2.call throws args { w with invoked := w.invoked ++ [(e, args)] } with
    | ok w1 => exact ih w1
    | error w1 => rfl

/-- A pass reaches a pair when no call of a pair before it fails: it calls the pairs
before, then this pair, running their code; if the call of this pair fails, the pass
ends there with the exception, and otherwise it goes on over an initial segment of the
pairs after.  The reference counts are as before in either case. -/
theorem for_each_reaches (throws : Call → Bool) (x : Arg) (w : World)
    (before after : List Entry) (e : Entry) (hno : NoThrow throws before x w) :
    (e.2.fails throws x w = true →
      for_each throws x (before ++ e :: after) w = .error { w with
        invoked := w.invoked ++ (before.map (fun a => (a, x)) ++ [(e, x)])
        out := w.out ++ (before.filterMap (fun a => a.2.effect x w)
          ++ (e.2.effect x w).toList) }) ∧
    (∃ k, k ≤ after.length ∧
      (final (for_each throws x (before ++ e :: after) w)).invoked
        = w.invoked ++ (before.map (fun a => (a, x)) ++ (e, x)
          :: (after.take k).map (fun a => (a, x))) ∧
      (final (for_each throws x (before ++ e :: after) w)).out
        = w.out ++ (before.filterMap (fun a => a.2.effect x w)
          ++ ((e.2.effect x w).toList
            ++ (after.take k).filterMap (fun a => a.2.effect x w)))) ∧
    (final (for_each throws x (before ++ e :: after) w)).use_count = w.use_count := by
  have hw : (⟨w.use_count, w.invoked ++ before.map (fun a => (a, x)),
      w.out ++ before.filterMap (fun a => a.2.effect x w)⟩ : World).use_count
        = w.use_count := rfl
  have hstep : for_each throws x (before ++ e :: after) w
      = for_each throws x (e :: after)
          ⟨w.use_count, w.invoked ++ before.map (fun a => (a, x)),
            w.out ++ before.filterMap (fun a => a.2.effect x w)⟩ := by
    rw [for_each_append, for_each_ok throws x before w hno]
  rw [hstep, for_each_cons, effect_congr e.2 x w _ hw, fails_congr throws e.2 x w _ hw]
  by_cases ht : e.2.fails throws x w = true
  · refine ⟨fun _ => by simp [ht], ⟨0, Nat.zero_le _, ?_, ?_⟩, ?_⟩ <;> simp [ht, final]
  · refine ⟨fun h => absurd h ht, ?_, ?_⟩
    · simp only [ht, Bool.false_eq_true, if_false]
      obtain ⟨k, hk, hi, ho, _⟩ := for_each_invoked throws x after
        ⟨w.use_count, w.invoked ++ before.map (fun a => (a, x)) ++ [(e, x)],
          w.out ++ before.filterMap (fun a => a.2.effect x w) ++ (e.2.effect x w).toList⟩
      refine ⟨k, hk, ?_, ?_⟩
      · rw [hi]; simp
      · rw [ho]
        simp only [List.append_assoc, List.append_cancel_left_eq]
        exact filterMap_effect_congr x _ w _ rfl
    · simp only [ht, Bool.false_eq_true, if_false]
      obtain ⟨_, _, _, _, hu⟩ := for_each_invoked throws x after
        ⟨w.use_count, w.invoked ++ before.map (fun a => (a, x)) ++ [(e, x)],
          w.out ++ before.filterMap (fun a => a.2.effect x w) ++ (e.2.effect x w).toList⟩
      exact hu

/-! ## Lemmas on `notify` -/

theorem invocations_append (w w1 : World) (d : List (Entry × Arg))
    (h : w1.invoked = w.invoked ++ d) : invocations w w1 = d := by
  simp [invocations, h]

theorem ran_append (w w1 : World) (d : List Call) (h : w1.out = w.out ++ d) :
    ran w w1 = d := by
  simp [ran, h]

/-- The pass `notify` when no call of a stored callable fails. -/
theorem notify_ok (throws : Call → Bool) (s : Subject) (x : Arg) (w : World)
    (h : NoThrow throws s.m_observers x w) :
    s.notify throws x w = .ok { w with
      invoked := w.invoked ++ s.m_observers.map (fun e => (e, x))
      out := w.out ++ s.m_observers.filterMap (fun e => e.2.effect x w) } :=
  for_each_ok throws x s.m_observers w h

/-- The pass `notify` in general: the calls made are those of an initial segment. -/
theorem notify_segment (throws : Call → Bool) (s : Subject) (x : Arg) (w : World) :
    ∃ k, k ≤ s.m_observers.length ∧
      invocations w (final (s.notify throws x w))
        = (s.m_observers.take k).map (fun e => (e, x)) ∧
      ran w (final (s.notify throws x w))
        = (s.m_observers.take k).filterMap (fun e => e.2.effect x w) := by
  obtain ⟨k, hk, hi, ho, _⟩ := for_each_invoked throws x s.m_observers w
  exact ⟨k, hk, invocations_append _ _ _ hi, ran_append _ _ _ ho⟩

theorem count_pair_with (x : Arg) (l : List Entry) (e : Entry) :
    (l.map (fun e => (e, x))).count (e, x) = l.count e := by
  induction l with
  | nil => rfl
  | cons a rest ih =>
    simp only [List.map_cons, List.count_cons, ih]
    by_cases hae : a = e
    · subst hae; simp
    · have h1 : ((a, x) == (e, x)) = false := by
        simp [hae]
      have h2 : (a == e) = false := by simp [hae]
      simp [h1, h2]

/-- Arrangements of the same pairs hold each pair equally often. -/
theorem count_perm {l1 l2 : List Entry} (h : l1.Perm l2) (e : Entry) :
    l1.count e = l2.count e := by
  induction h with
  | nil => rfl
  | cons a _ ih => simp only [List.count_cons, ih]
  | swap a b l => simp only [List.count_cons]; omega
  | trans _ _ ih1 ih2 => exact ih1.trans ih2

theorem NoThrow_perm (throws : Call → Bool) {l1 l2 : List Entry} (h : l1.Perm l2) (x : Arg)
    (w : World) (hno : NoThrow throws l2 x w) : NoThrow throws l1 x w :=
  fun e he => hno e (h.subset he)

/-! ## Lemmas on the identifiers of calls without `id` -/

theorem UINT32_SIZE_pos : 0 < UINT32_SIZE := by
  unfold UINT32_SIZE; norm_num

theorem subscribe_with_fst (s : Subject) (a : Subscriber) (id : id_type) :
    (s.subscribe_with a id).1 = id := by
  cases a <;> rfl

theorem subscribe_default_fst (s : Subject) (a : Subscriber) (c : Nat) :
    (s.subscribe_default a c).1 = c := by
  simp [Subject.subscribe_default, getId, subscribe_with_fst]

theorem subscribe_default_static (s : Subject) (a : Subscriber) (c : Nat) :
    (s.subscribe_default a c).2.2 = (c + 1) % UINT32_SIZE := by
  simp [Subject.subscribe_default, getId]

theorem subscribe_all_cons (a : Subscriber) (rest : List Subscriber) (s : Subject)
    (c : Nat) :
    (subscribe_all (a :: rest) s c).1
      = c :: (subscribe_all rest (s.subscribe_default a c).2.1 ((c + 1) % UINT32_SIZE)).1 := by
  simp only [subscribe_all]
  rw [subscribe_default_static s a c, subscribe_default_fst s a c]

theorem subscribe_all_cons_static (a : Subscriber) (rest : List Subscriber) (s : Subject)
    (c : Nat) :
    (subscribe_all (a :: rest) s c).2.2
      = (subscribe_all rest (s.subscribe_default a c).2.1 ((c + 1) % UINT32_SIZE)).2.2 := by
  simp only [subscribe_all]
  rw [subscribe_default_static s a c]

/-- The identifiers returned by `n` calls without `id`, the static being `c` before the
first: `c`, `c + 1`, ... reduced modulo `2^32`. -/
theorem subscribe_all_ids (l : List Subscriber) (s : Subject) (c : Nat)
    (hc : c < UINT32_SIZE) :
    (subscribe_all l s c).1 = (List.range l.length).map (fun k => (c + k) % UINT32_SIZE) := by
  induction l generalizing s c with
  | nil => rfl
  | cons a rest ih =>
    rw [subscribe_all_cons, ih _ _ (Nat.mod_lt _ UINT32_SIZE_pos), List.length_cons,
      List.range_succ_eq_map, List.map_cons, List.map_map]
    congr 1
    · simp [Nat.mod_eq_of_lt hc]
    · apply List.map_congr_left
      intro k _
      simp only [Function.comp, Nat.succ_eq_add_one]
      rw [Nat.mod_add_mod]
      congr 1
      omega

/-- The static after `n` calls without `id`. -/
theorem subscribe_all_static (l : List Subscriber) (s : Subject) (c : Nat) :
    (subscribe_all l s c).2.2 % UINT32_SIZE = (c + l.length) % UINT32_SIZE := by
  induction l generalizing s c with
  | nil => rfl
  | cons a rest ih =>
    rw [subscribe_all_cons_static, ih, List.length_cons, Nat.mod_add_mod]
    congr 1
    omega

/-- Without a wrap of the static, the identifiers are `c, c + 1, ..., c + n - 1`. -/
theorem subscribe_all_ids_nowrap (l : List Subscriber) (s : Subject) (c : Nat)
    (h : c + l.length ≤ UINT32_SIZE) :
    (subscribe_all l s c).1 = List.range' c l.length := by
  induction l generalizing s c with
  | nil => rfl
  | cons a rest ih =>
    rw [subscribe_all_cons, List.length_cons, List.range'_succ]
    congr 1
    cases rest with
    | nil => rfl
    | cons b rest2 =>
      simp only [List.length_cons] at h
      have hlt : c + 1 < UINT32_SIZE := by omega
      rw [Nat.mod_eq_of_lt hlt]
      apply ih
      simp only [List.length_cons]
      omega

/-! ## Theorems -/

/-- Counterexample to C1 as stated: a registry of two callables that both throw, in
either iteration order: `notify(8)` calls the first pair only and leaves with its
exception, one call for two entries.  The same with an empty `std::function` between
two callables that do not throw: the pass leaves with `std::bad_function_call` and the
last one is not called. -/
theorem notify_stops_at_throwing_entry :
    ((Subject.empty.subscribe (.fn 0) 0).2.subscribe (.fn 1) 1).2.m_observers.Perm
      [(0, .fn 0), (1, .fn 1)] ∧
    invocations ⟨[], [], []⟩ (final (Subject.notify (fun _ => true)
        ⟨[(1, .fn 1), (0, .fn 0)]⟩ 8 ⟨[], [], []⟩))
      = [((1, .fn 1), 8)] ∧
    invocations ⟨[], [], []⟩ (final (Subject.notify (fun _ => true)
        ⟨[(0, .fn 0), (1, .fn 1)]⟩ 8 ⟨[], [], []⟩))
      = [((0, .fn 0), 8)] ∧
    returned (Subject.notify (fun _ => true) ⟨[(1, .fn 1), (0, .fn 0)]⟩ 8 ⟨[], [], []⟩)
      = false ∧
    returned (Subject.notify (fun _ => true) ⟨[(0, .fn 0), (1, .fn 1)]⟩ 8 ⟨[], [], []⟩)
      = false ∧
    ran ⟨[], [], []⟩ (final (Subject.notify (fun _ => false)
        ⟨[(0, .fn 0), (1, .empty), (2, .fn 2)]⟩ 8 ⟨[], [], []⟩)) = [Call.fn 0 8] ∧
    returned (Subject.notify (fun _ => false)
        ⟨[(0, .fn 0), (1, .empty), (2, .fn 2)]⟩ 8 ⟨[], [], []⟩) = false := by
  decide

/-- C1 (amended): one call of `notify` with `x` in which no call of a stored callable
fails (none is an empty `std::function`, no caller code throws) calls the callable of
every registered entry exactly once, with `x`, and calls nothing else: the calls are the
entries in iteration order, each entry is called as often as it is registered, every
call carries `x`, and there are as many calls as entries.  In particular, after one
callable is subscribed on an empty `Subject`, `notify(x)` calls it exactly once with
`x`, whatever the call does; a plain callable `f` runs once with `x`. -/
theorem notify_invokes_every_entry_once (throws : Call → Bool) (s : Subject) (x : Arg)
    (w : World) (h : NoThrow throws s.m_observers x w) :
    (∀ e ∈ s.m_observers, returned (e.2.call throws x w) = true) ∧
    returned (s.notify throws x w) = true ∧
    invocations w (final (s.notify throws x w)) = s.m_observers.map (fun e => (e, x)) ∧
    (∀ e, (invocations w (final (s.notify throws x w))).count (e, x)
      = s.m_observers.count e) ∧
    (∀ ev ∈ invocations w (final (s.notify throws x w)), ev.2 = x) ∧
    (invocations w (final (s.notify throws x w))).length = s.m_observers.length ∧
    ran w (final (s.notify throws x w))
      = s.m_observers.filterMap (fun e => e.2.effect x w) ∧
    (∀ (o : observer_type) (id : id_type),
      invocations w (final ((Subject.empty.subscribe o id).2.notify throws x w))
        = [((id, o), x)] ∧
      ran w (final ((Subject.empty.subscribe o id).2.notify throws x w))
        = (o.effect x w).toList) ∧
    (∀ (f : Nat) (id : id_type),
      invocations w (final ((Subject.empty.subscribe (.fn f) id).2.notify throws x w))
        = [((id, .fn f), x)] ∧
      ran w (final ((Subject.empty.subscribe (.fn f) id).2.notify throws x w))
        = [Call.fn f x]) := by
  have hinv : invocations w (final (s.notify throws x w))
      = s.m_observers.map (fun e => (e, x)) := by
    rw [notify_ok throws s x w h]
    exact invocations_append _ _ _ rfl
  have hone : ∀ (o : observer_type) (id : id_type),
      invocations w (final ((Subject.empty.subscribe o id).2.notify throws x w))
        = [((id, o), x)] ∧
      ran w (final ((Subject.empty.subscribe o id).2.notify throws x w))
        = (o.effect x w).toList := by
    intro o id
    have hstep : (Subject.empty.subscribe o id).2.notify throws x w
        = for_each throws x [(id, o)] w := rfl
    rw [hstep, for_each_cons]
    by_cases hf : o.fails throws x w = true
    · simp only [hf, if_true, final]
      exact ⟨invocations_append _ _ _ rfl, ran_append _ _ _ rfl⟩
    · simp only [hf, Bool.false_eq_true, if_false, for_each, final]
      exact ⟨invocations_append _ _ _ rfl, ran_append _ _ _ rfl⟩
  refine ⟨?_, ?_, hinv, ?_, ?_, ?_, ?_, hone, fun f id => hone (.fn f) id⟩
  · intro e he
    rw [returned_call, h e he]; rfl
  · rw [notify_ok throws s x w h]; rfl
  · intro e
    rw [hinv]
    exact count_pair_with x s.m_observers e
  · intro ev hev
    rw [hinv] at hev
    obtain ⟨e, _, rfl⟩ := List.mem_map.mp hev
    rfl
  · rw [hinv, List.length_map]
  · rw [notify_ok throws s x w h]
    exact ran_append _ _ _ rfl

/-- Witness of C1 (amended): a plain callable and a weak entry on a live object, neither
of which throws. -/
theorem notify_invokes_every_entry_once_witness :
    NoThrow (fun _ => false) [(7, .fn 0), (3, .weak 0 2)] 8 ⟨[1], [], []⟩ ∧
    invocations ⟨[1], [], []⟩ (final (Subject.notify (fun _ => false)
        ⟨[(7, .fn 0), (3, .weak 0 2)]⟩ 8 ⟨[1], [], []⟩))
      = [((7, .fn 0), 8), ((3, .weak 0 2), 8)] :=
  ⟨by unfold NoThrow; decide,
    (notify_invokes_every_entry_once (fun _ => false) ⟨[(7, .fn 0), (3, .weak 0 2)]⟩ 8
      ⟨[1], [], []⟩ (by unfold NoThrow; decide)).2.2.1⟩

/-- C2: after `unsubscribe(id)` the registry holds no entry under `id`, so a following
`notify`, whatever throws, calls no entry registered under `id` and runs only code of
entries kept under other identifiers.  In particular two subscriptions under one explicit
`id` followed by one `unsubscribe(id)` are both removed, and neither is called. -/
theorem unsubscribe_removes_every_entry_of_id (throws : Call → Bool) (s : Subject)
    (id : id_type) (x : Arg) (w : World) :
    (∀ e ∈ (s.unsubscribe id).m_observers, e.1 ≠ id) ∧
    (s.unsubscribe id).m_observers.countP (fun e => e.1 = id) = 0 ∧
    (∀ ev ∈ invocations w (final ((s.unsubscribe id).notify throws x w)), ev.1.1 ≠ id) ∧
    (∀ c ∈ ran w (final ((s.unsubscribe id).notify throws x w)),
      ∃ e ∈ s.m_observers, e.1 ≠ id ∧ e.2.effect x w = some c) ∧
    (∀ f g, ((s.subscribe f id).2.subscribe g id).2.unsubscribe id = s.unsubscribe id) ∧
    (∀ f g, ∀ ev ∈ invocations w (final
        ((((s.subscribe f id).2.subscribe g id).2.unsubscribe id).notify throws x w)),
      ev ≠ ((id, f), x) ∧ ev ≠ ((id, g), x)) := by
  have hmem : ∀ e ∈ (s.unsubscribe id).m_observers, e ∈ s.m_observers ∧ e.1 ≠ id := by
    intro e he
    simpa [Subject.unsubscribe] using he
  have hnone : ∀ ev ∈ invocations w (final ((s.unsubscribe id).notify throws x w)),
      ev.1.1 ≠ id := by
    intro ev hev
    obtain ⟨k, _, hi, _⟩ := notify_segment throws (s.unsubscribe id) x w
    rw [hi] at hev
    obtain ⟨e, he, rfl⟩ := List.mem_map.mp hev
    exact (hmem e (List.mem_of_mem_take he)).2
  have hsame : ∀ f g, ((s.subscribe f id).2.subscribe g id).2.unsubscribe id
      = s.unsubscribe id := by
    intro f g
    simp [Subject.subscribe, Subject.unsubscribe]
  refine ⟨fun e he => (hmem e he).2, ?_, hnone, ?_, hsame, ?_⟩
  · rw [List.countP_eq_zero]
    intro e he
    simpa using (hmem e he).2
  · intro c hc
    obtain ⟨k, _, _, ho⟩ := notify_segment throws (s.unsubscribe id) x w
    rw [ho] at hc
    obtain ⟨e, he, hec⟩ := List.mem_filterMap.mp hc
    exact ⟨e, (hmem e (List.mem_of_mem_take he)).1, (hmem e (List.mem_of_mem_take he)).2, hec⟩
  · intro f g ev hev
    rw [hsame f g] at hev
    have hne := hnone ev hev
    constructor <;> (intro heq; subst heq; exact hne rfl)

/-- The identifiers of at most `2^32` calls without `id` are pairwise distinct. -/
theorem subscribe_all_nodup (l : List Subscriber) (s : Subject) (c : Nat)
    (hc : c < UINT32_SIZE) (hl : l.length ≤ UINT32_SIZE) : (subscribe_all l s c).1.Nodup := by
  rw [subscribe_all_ids l s c hc]
  apply List.Nodup.map_on _ (List.nodup_range _)
  intro i hi j hj hij
  have hi1 : i < UINT32_SIZE := lt_of_lt_of_le (List.mem_range.mp hi) hl
  have hj1 : j < UINT32_SIZE := lt_of_lt_of_le (List.mem_range.mp hj) hl
  have hmod : i ≡ j [MOD UINT32_SIZE] := Nat.ModEq.add_left_cancel' c hij
  exact Nat.ModEq.eq_of_lt_of_lt hmod hi1 hj1

/-- C3: the code at the failing input.  From program start, `2^32 + 1` calls of
`subscribe` without `id` return identifiers that are neither strictly increasing nor
pairwise distinct: the 32-bit static of `getId` has wrapped, and the last call returns
`0` as the first one did, against the unique identifier that `getId` documents. -/
theorem auto_ids_repeat_after_wrap :
    ¬ List.Pairwise (fun a b => a < b) (subscribe_all
        (List.replicate (UINT32_SIZE + 1) (Subscriber.observer (.fn 0)))
        Subject.empty getId_init).1 ∧
    ¬ (subscribe_all (List.replicate (UINT32_SIZE + 1) (Subscriber.observer (.fn 0)))
        Subject.empty getId_init).1.Nodup := by
  have hnd : ¬ (subscribe_all (List.replicate (UINT32_SIZE + 1) (Subscriber.observer (.fn 0)))
      Subject.empty getId_init).1.Nodup := by
    rw [subscribe_all_ids _ _ getId_init UINT32_SIZE_pos, List.length_replicate]
    intro h
    have h0 : 0 < ((List.range (UINT32_SIZE + 1)).map
        (fun k => (getId_init + k) % UINT32_SIZE)).length := by
      rw [List.length_map, List.length_range]; exact Nat.succ_pos _
    have hN : UINT32_SIZE < ((List.range (UINT32_SIZE + 1)).map
        (fun k => (getId_init + k) % UINT32_SIZE)).length := by
      rw [List.length_map, List.length_range]; exact Nat.lt_succ_self _
    have heq : ((List.range (UINT32_SIZE + 1)).map
          (fun k => (getId_init + k) % UINT32_SIZE))[0]
        = ((List.range (UINT32_SIZE + 1)).map
          (fun k => (getId_init + k) % UINT32_SIZE))[UINT32_SIZE] := by
      rw [List.getElem_map, List.getElem_map, List.getElem_range, List.getElem_range]
      show (0 + 0) % UINT32_SIZE = (0 + UINT32_SIZE) % UINT32_SIZE
      rw [Nat.zero_add, Nat.zero_add, Nat.mod_self, Nat.zero_mod]
    have hz : 0 = UINT32_SIZE := (h.getElem_inj_iff).mp heq
    exact absurd hz (Nat.ne_of_lt UINT32_SIZE_pos)
  refine ⟨fun hp => hnd ?_, hnd⟩
  exact hp.imp (fun hab => Nat.ne_of_lt hab)

/-- Up to the failing input the property holds: for every sequence of `subscribe` calls
without `id`, through any of the four overloads, started with the static at `c`: while
the static does not wrap
(`c + n ≤ 2^32` for `n` calls) the identifiers returned are `c, c + 1, ...`, strictly
increasing in call order and pairwise distinct; and any `n ≤ 2^32` calls return pairwise
distinct identifiers. -/
theorem auto_ids_increasing_until_wrap (l : List Subscriber) (s : Subject) (c : Nat)
    (hc : c < UINT32_SIZE) :
    (c + l.length ≤ UINT32_SIZE →
      (subscribe_all l s c).1 = List.range' c l.length ∧
      List.Pairwise (fun a b => a < b) (subscribe_all l s c).1 ∧
      (subscribe_all l s c).1.Nodup) ∧
    (l.length ≤ UINT32_SIZE → (subscribe_all l s c).1.Nodup) := by
  refine ⟨fun h => ?_, subscribe_all_nodup l s c hc⟩
  rw [subscribe_all_ids_nowrap l s c h]
  exact ⟨rfl, List.pairwise_lt_range' c l.length, List.nodup_range' c l.length⟩

/-- An instance: one call through each overload, from program start. -/
theorem auto_ids_increasing_until_wrap_witness :
    getId_init < UINT32_SIZE ∧
    (subscribe_all [.observer (.fn 0), .ptr (.automatic 0) 0, .shared 0 1, .weak 0 2]
      Subject.empty getId_init).1 = List.range' getId_init 4 :=
  ⟨UINT32_SIZE_pos,
    ((auto_ids_increasing_until_wrap
      [.observer (.fn 0), .ptr (.automatic 0) 0, .shared 0 1, .weak 0 2]
      Subject.empty getId_init UINT32_SIZE_pos).1 (by decide)).1⟩

/-- The multiplicity of every pair after `subscribe(f, id)`. -/
theorem subscribe_adds_one_entry_count (s : Subject) (f : observer_type) (id : id_type)
    (e : Entry) :
    (s.subscribe f id).2.m_observers.count e
      = s.m_observers.count e + if e = (id, f) then 1 else 0 := by
  simp only [Subject.subscribe, List.count_cons]
  by_cases h : e = (id, f)
  · subst h; simp
  · have h1 : ((id, f) == e) = false := by
      simp only [beq_eq_false_iff_ne, ne_eq]
      exact fun hc => h hc.symm
    simp [h, h1]

/-- C4: `subscribe(f, id)` returns `id` and adds exactly one entry `(id, f)`: one more
entry in all and one more under `id`, the multiplicity of every pair unchanged but for
`(id, f)`, which gains one, and every pair present before still present, also when
`id` is already in use. -/
theorem subscribe_adds_one_entry (s : Subject) (f : observer_type) (id : id_type) :
    (s.subscribe f id).1 = id ∧
    (s.subscribe f id).2.m_observers.length = s.m_observers.length + 1 ∧
    (s.subscribe f id).2.m_observers.countP (fun e => e.1 = id)
      = s.m_observers.countP (fun e => e.1 = id) + 1 ∧
    (∀ e, (s.subscribe f id).2.m_observers.count e
      = s.m_observers.count e + if e = (id, f) then 1 else 0) ∧
    (∀ e ∈ s.m_observers, e ∈ (s.subscribe f id).2.m_observers) ∧
    (id, f) ∈ (s.subscribe f id).2.m_observers := by
  refine ⟨rfl, by simp [Subject.subscribe], by simp [Subject.subscribe], ?_, ?_, ?_⟩
  · exact subscribe_adds_one_entry_count s f id
  · intro e he
    exact List.mem_cons_of_mem _ he
  · exact List.mem_cons_self _ _

/-- C7: `unsubscribe(id)` on a registry with no entry under `id` leaves the registry
unchanged, and `unsubscribe(id)` twice gives the registry of `unsubscribe(id)` once. -/
theorem unsubscribe_absent_id_unchanged (s : Subject) (id : id_type) :
    ((∀ e ∈ s.m_observers, e.1 ≠ id) → s.unsubscribe id = s) ∧
    (s.unsubscribe id).unsubscribe id = s.unsubscribe id := by
  constructor
  · intro h
    cases s with
    | mk l =>
      simp only [Subject.unsubscribe, Subject.mk.injEq, List.filter_eq_self]
      intro e he
      simpa using h e he
  · simp [Subject.unsubscribe, List.filter_filter]

/-- Witness of C7: identifier `5` is not in use. -/
theorem unsubscribe_absent_id_unchanged_witness :
    (∀ e ∈ (⟨[(1, .fn 0), (2, .weak 0 1)]⟩ : Subject).m_observers, e.1 ≠ 5) ∧
    (⟨[(1, .fn 0), (2, .weak 0 1)]⟩ : Subject).unsubscribe 5
      = ⟨[(1, .fn 0), (2, .weak 0 1)]⟩ :=
  ⟨by decide,
    (unsubscribe_absent_id_unchanged ⟨[(1, .fn 0), (2, .weak 0 1)]⟩ 5).1 (by decide)⟩

/-- C10: `clear()` leaves no entry, so a following `notify(x)`, whatever the state and
whatever would throw, returns at once: it calls nothing and runs nothing. -/
theorem clear_then_notify_invokes_nothing (throws : Call → Bool) (s : Subject) (x : Arg)
    (w : World) :
    s.clear.m_observers = [] ∧
    s.clear.notify throws x w = .ok w ∧
    invocations w (final (s.clear.notify throws x w)) = [] ∧
    ran w (final (s.clear.notify throws x w)) = [] := by
  refine ⟨rfl, rfl, ?_, ?_⟩
  · simp [Subject.clear, Subject.notify, for_each, final, invocations]
  · simp [Subject.clear, Subject.notify, for_each, final, ran]

/-- Pairs whose callable runs nothing can be left out of the code a pass runs. -/
theorem filterMap_effect_filter (x : Arg) (w : World) (l : List Entry) (d : Entry)
    (hd : d.2.effect x w = none) :
    l.filterMap (fun e => e.2.effect x w)
      = (l.filter (fun e => e ≠ d)).filterMap (fun e => e.2.effect x w) := by
  induction l with
  | nil => rfl
  | cons a rest ih =>
    by_cases had : a = d
    · subst had
      simp [List.filterMap_cons, hd, ih]
    · simp [List.filter_cons, had, List.filterMap_cons, ih]

/-- A pair whose callable runs nothing and does not fail is transparent: whatever else
fails, the pass runs the same code, ends the same way and leaves the same reference
counts as the pass over the registry without that pair. -/
theorem for_each_without_silent (throws : Call → Bool) (x : Arg) (d : Entry)
    (l : List Entry) (w w1 : World) (hu : w1.use_count = w.use_count) (ho : w1.out = w.out)
    (hd : d.2.effect x w = none) (hdf : d.2.fails throws x w = false) :
    (final (for_each throws x l w)).out
      = (final (for_each throws x (l.filter (fun e => e ≠ d)) w1)).out ∧
    returned (for_each throws x l w)
      = returned (for_each throws x (l.filter (fun e => e ≠ d)) w1) ∧
    (final (for_each throws x l w)).use_count
      = (final (for_each throws x (l.filter (fun e => e ≠ d)) w1)).use_count := by
  induction l generalizing w w1 with
  | nil => simp [for_each, final, returned, hu, ho]
  | cons a rest ih =>
    have hd1 : ∀ w2 : World, w2.use_count = w.use_count → d.2.effect x w2 = none := by
      intro w2 h2
      rw [effect_congr d.2 x w w2 h2]; exact hd
    have hdf1 : ∀ w2 : World, w2.use_count = w.use_count →
        d.2.fails throws x w2 = false := by
      intro w2 h2
      rw [fails_congr throws d.2 x w w2 h2]; exact hdf
    by_cases had : a = d
    · subst had
      have hf : (a :: rest).filter (fun e => e ≠ a) = rest.filter (fun e => e ≠ a) := by
        simp [List.filter_cons]
      rw [hf, for_each_cons, hd, hdf]
      simp only [Bool.false_eq_true, if_false]
      exact ih ⟨w.use_count, w.invoked ++ [(a, x)], w.out ++ (none : Option Call).toList⟩ w1
        hu (by simpa using ho) (hd1 _ rfl) (hdf1 _ rfl)
    · have hf : (a :: rest).filter (fun e => e ≠ d)
          = a :: rest.filter (fun e => e ≠ d) := by
        simp [List.filter_cons, had]
      rw [hf, for_each_cons, for_each_cons, effect_congr a.2 x w w1 hu,
        fails_congr throws a.2 x w w1 hu]
      by_cases ht : a.2.fails throws x w = true
      · simp [ht, final, returned, hu, ho]
      · simp only [ht, Bool.false_eq_true, if_false]
        exact ih ⟨w.use_count, w.invoked ++ [(a, x)], w.out ++ (a.2.effect x w).toList⟩
          ⟨w1.use_count, w1.invoked ++ [(a, x)], w1.out ++ (a.2.effect x w).toList⟩
          hu (by simp [ho]) (hd1 _ rfl) (hdf1 _ rfl)

/-- Counterexample to C5 as stated: `fn1` subscribed through a `shared_ptr` on object
`0`, destroyed since, next to two plain callables that both throw, in either order of
the two: `notify(8)` leaves with an exception after the first of them, and the other one
is not delivered to.  The same with an empty `std::function` ahead of a callable that
does not throw. -/
theorem dead_weak_entry_others_may_throw :
    World.strong ⟨[0], [], []⟩ 0 = 0 ∧
    (0, observer_type.weak 0 Toto.fn1)
      ∈ (((Subject.empty.subscribe_shared 0 Toto.fn1 0).2.subscribe (.fn 0) 1).2.subscribe
          (.fn 1) 2).2.m_observers ∧
    ran ⟨[0], [], []⟩ (final (Subject.notify (fun _ => true)
        ⟨[(2, .fn 1), (1, .fn 0), (0, .weak 0 Toto.fn1)]⟩ 8 ⟨[0], [], []⟩))
      = [Call.fn 1 8] ∧
    returned (Subject.notify (fun _ => true)
        ⟨[(2, .fn 1), (1, .fn 0), (0, .weak 0 Toto.fn1)]⟩ 8 ⟨[0], [], []⟩) = false ∧
    ran ⟨[0], [], []⟩ (final (Subject.notify (fun _ => true)
        ⟨[(0, .weak 0 Toto.fn1), (1, .fn 0), (2, .fn 1)]⟩ 8 ⟨[0], [], []⟩))
      = [Call.fn 0 8] ∧
    ran ⟨[0], [], []⟩ (final (Subject.notify (fun _ => false)
        ⟨[(0, .weak 0 Toto.fn1), (1, .empty), (2, .fn 1)]⟩ 8 ⟨[0], [], []⟩)) = [] ∧
    returned (Subject.notify (fun _ => false)
        ⟨[(0, .weak 0 Toto.fn1), (1, .empty), (2, .fn 1)]⟩ 8 ⟨[0], [], []⟩) = false := by
  decide

/-- C5 (amended): an entry made through a shared or a weak handle, on an object destroyed
before `notify(x)` (strong count `0`).  Its callable returns without running the method
or raising anything, and whatever else fails, the pass runs the same code and ends the
same way as a pass over the registry without the dead entry.  In a pass in which no call
of a stored callable fails (none is an empty `std::function`, no caller code throws),
the entry is still called, the pass returns, the code run is exactly that of the other
entries, the reference counts are as before, and the entry is not pruned: `notify` is a
`const` member, the registry `s` is the same after the pass, and a second pass calls
every entry again, the dead one included. -/
theorem dead_weak_entry_skipped_not_pruned (throws : Call → Bool) (s : Subject) (x : Arg)
    (w : World) (id : id_type) (object : Nat) (method : Method)
    (hmem : (id, .weak object method) ∈ s.m_observers)
    (hdead : w.strong object = 0)
    (hno : NoThrow throws s.m_observers x w) :
    (∀ s0 : Subject,
      (id, .weak object method) ∈ (s0.subscribe_shared object method id).2.m_observers ∧
      (id, .weak object method) ∈ (s0.subscribe_weak object method id).2.m_observers) ∧
    (∀ w1 : World, w1.strong object = 0 →
      (observer_type.weak object method).call throws x w1 = .ok w1) ∧
    returned (s.notify throws x w) = true ∧
    ran w (final (s.notify throws x w))
      = (s.m_observers.filter (fun e => e ≠ (id, .weak object method))).filterMap
          (fun e => e.2.effect x w) ∧
    (final (s.notify throws x w)).use_count = w.use_count ∧
    invocations w (final (s.notify throws x w)) = s.m_observers.map (fun e => (e, x)) ∧
    ((id, .weak object method), x) ∈ invocations w (final (s.notify throws x w)) ∧
    invocations (final (s.notify throws x w))
        (final (s.notify throws x (final (s.notify throws x w))))
      = s.m_observers.map (fun e => (e, x)) ∧
    (∀ throws1 : Call → Bool,
      ran w (final (s.notify throws1 x w))
        = ran w (final (Subject.notify throws1
            ⟨s.m_observers.filter (fun e => e ≠ (id, .weak object method))⟩ x w)) ∧
      returned (s.notify throws1 x w)
        = returned (Subject.notify throws1
            ⟨s.m_observers.filter (fun e => e ≠ (id, .weak object method))⟩ x w)) := by
  have hnone : (observer_type.weak object method).effect x w = none := by
    simp [observer_type.effect, hdead]
  have hnf : ∀ t : Call → Bool, (observer_type.weak object method).fails t x w = false := by
    intro t
    simp [observer_type.fails, hdead]
  have hfin := notify_ok throws s x w hno
  have hinv : invocations w (final (s.notify throws x w))
      = s.m_observers.map (fun e => (e, x)) := by
    rw [hfin]; exact invocations_append _ _ _ rfl
  have hu : (final (s.notify throws x w)).use_count = w.use_count := by rw [hfin]; rfl
  have hno2 : NoThrow throws s.m_observers x (final (s.notify throws x w)) :=
    NoThrow_congr throws _ x w _ hu hno
  refine ⟨fun s0 => ⟨List.mem_cons_self _ _, List.mem_cons_self _ _⟩, ?_, ?_, ?_, hu, hinv,
    ?_, ?_, ?_⟩
  · intro w1 hw1
    simp [observer_type.call, World.lock, hw1]
  · rw [hfin]; rfl
  · rw [hfin, ran_append _ _ _ rfl]
    exact filterMap_effect_filter x w s.m_observers _ hnone
  · rw [hinv]
    exact List.mem_map.mpr ⟨_, hmem, rfl⟩
  · rw [notify_ok throws s x _ hno2]
    exact invocations_append _ _ _ rfl
  · intro throws1
    have ht := for_each_without_silent throws1 x (id, .weak object method) s.m_observers
      w w rfl rfl hnone (hnf throws1)
    exact ⟨by unfold ran Subject.notify; rw [ht.1], ht.2.1⟩

/-- Witness of C5 (amended): `fn1` subscribed through a `shared_ptr` on object `0`, now
destroyed, next to a plain callable. -/
theorem dead_weak_entry_skipped_not_pruned_witness :
    ((2, observer_type.weak 0 Toto.fn1) ∈
      ((Subject.mk [(0, .fn lambda)]).subscribe_shared 0 Toto.fn1 2).2.m_observers ∧
    World.strong ⟨[0], [], []⟩ 0 = 0 ∧
    NoThrow (fun _ => false)
      ((Subject.mk [(0, .fn lambda)]).subscribe_shared 0 Toto.fn1 2).2.m_observers 8
      ⟨[0], [], []⟩) ∧
    ran ⟨[0], [], []⟩ (final (Subject.notify (fun _ => false)
        ((Subject.mk [(0, .fn lambda)]).subscribe_shared 0 Toto.fn1 2).2 8 ⟨[0], [], []⟩))
      = [Call.fn lambda 8] :=
  ⟨⟨by decide, by decide, by unfold NoThrow; decide⟩,
    (dead_weak_entry_skipped_not_pruned (fun _ => false)
      ((Subject.mk [(0, .fn lambda)]).subscribe_shared 0 Toto.fn1 2).2 8 ⟨[0], [], []⟩
      2 0 Toto.fn1 (by decide) (by decide) (by unfold NoThrow; decide)).2.2.2.1⟩

/-- Counterexample to C6 as stated: `fn2` subscribed through a `shared_ptr` on object `0`,
still alive, behind a plain callable that throws: `notify(8)` calls the plain callable
first and leaves with its exception, `fn2` is not run.  The same behind an empty
`std::function`, though no caller code throws. -/
theorem live_shared_entry_behind_throwing_entry :
    0 < World.strong ⟨[1], [], []⟩ 0 ∧
    (0, observer_type.weak 0 Toto.fn2)
      ∈ ((Subject.empty.subscribe_shared 0 Toto.fn2 0).2.subscribe (.fn 0) 1).2.m_observers ∧
    ran ⟨[1], [], []⟩ (final (Subject.notify (fun c => c == Call.fn 0 8)
        ⟨[(1, .fn 0), (0, .weak 0 Toto.fn2)]⟩ 8 ⟨[1], [], []⟩)) = [Call.fn 0 8] ∧
    (ran ⟨[1], [], []⟩ (final (Subject.notify (fun c => c == Call.fn 0 8)
        ⟨[(1, .fn 0), (0, .weak 0 Toto.fn2)]⟩ 8
        ⟨[1], [], []⟩))).count (Call.method (.managed 0) Toto.fn2 8) = 0 ∧
    ran ⟨[1], [], []⟩ (final (Subject.notify (fun _ => false)
        ⟨[(1, .empty), (0, .weak 0 Toto.fn2)]⟩ 8 ⟨[1], [], []⟩)) = [] := by
  decide

/-- C6 (amended): an entry made through a shared handle; `before` and `after` are the
entries around it in iteration order, whatever that order is.  If no call of a callable
before it fails (none is an empty `std::function`, none of their code throws) and the
object is still alive when the pass has gone over them (strong count positive), the
pass calls the entry exactly once, at its place, and runs the method on that object
exactly once with `x` there, after the code of the entries before and ahead of the code
of an initial segment of the entries after; one call of its callable runs the method
exactly once with `x` and restores the reference counts. -/
theorem live_shared_entry_invoked_once (throws : Call → Bool) (s : Subject) (x : Arg)
    (w : World) (id : id_type) (object : Nat) (method : Method) (before after : List Entry)
    (hs : s.m_observers = before ++ (id, .weak object method) :: after)
    (hno : NoThrow throws before x w)
    (hreached : 0 < (final (for_each throws x before w)).strong object) :
    (∀ s0 : Subject,
      (s0.subscribe_shared object method id).1 = id ∧
      (id, .weak object method) ∈ (s0.subscribe_shared object method id).2.m_observers ∧
      (s0.subscribe_shared object method id).2.m_observers.count (id, .weak object method)
        = s0.m_observers.count (id, .weak object method) + 1) ∧
    (final ((observer_type.weak object method).call throws x w)).out
      = w.out ++ [Call.method (.managed object) method x] ∧
    (final ((observer_type.weak object method).call throws x w)).use_count = w.use_count ∧
    (∃ k, k ≤ after.length ∧
      invocations w (final (s.notify throws x w))
        = before.map (fun e => (e, x)) ++ ((id, .weak object method), x)
          :: (after.take k).map (fun e => (e, x)) ∧
      ran w (final (s.notify throws x w))
        = before.filterMap (fun e => e.2.effect x w)
          ++ Call.method (.managed object) method x
          :: (after.take k).filterMap (fun e => e.2.effect x w)) ∧
    (final (s.notify throws x w)).use_count = w.use_count ∧
    (NoThrow throws s.m_observers x w →
      returned (s.notify throws x w) = true ∧
      ran w (final (s.notify throws x w))
        = before.filterMap (fun e => e.2.effect x w)
          ++ Call.method (.managed object) method x
          :: after.filterMap (fun e => e.2.effect x w)) := by
  have hlive : 0 < w.strong object := by
    obtain ⟨_, _, _, _, hu⟩ := for_each_invoked throws x before w
    unfold World.strong at hreached ⊢
    rw [hu] at hreached
    exact hreached
  have heff : (observer_type.weak object method).effect x w
      = some (Call.method (.managed object) method x) := by
    simp [observer_type.effect, hlive]
  have hreach := for_each_reaches throws x w before after (id, .weak object method) hno
  refine ⟨fun s0 => ⟨rfl, List.mem_cons_self _ _, ?_⟩, ?_, ?_, ?_, ?_, ?_⟩
  · have hc := subscribe_adds_one_entry_count s0 (.weak object method) id
      (id, .weak object method)
    simpa [Subject.subscribe_shared, Subject.subscribe_weak] using hc
  · rw [call_eq, heff]
    by_cases ht : (observer_type.weak object method).fails throws x w = true <;>
      simp [ht, final]
  · rw [call_eq]
    by_cases ht : (observer_type.weak object method).fails throws x w = true <;>
      simp [ht, final]
  · obtain ⟨k, hk, hi, ho⟩ := hreach.2.1
    refine ⟨k, hk, ?_, ?_⟩
    · unfold Subject.notify
      rw [hs]
      exact invocations_append _ _ _ hi
    · unfold Subject.notify
      rw [hs]
      apply ran_append
      rw [ho]
      simp [heff]
  · unfold Subject.notify
    rw [hs]
    exact hreach.2.2
  · intro hall
    have hfin := notify_ok throws s x w hall
    refine ⟨by rw [hfin]; rfl, ?_⟩
    rw [hfin, ran_append _ _ _ rfl, hs]
    simp [List.filterMap_append, List.filterMap_cons, heff]

/-- Witness of C6 (amended): `fn2` subscribed through the `shared_ptr t1`, object `0`
alive, with the lambda before it and another callable after it in iteration order. -/
theorem live_shared_entry_invoked_once_witness :
    ((Subject.mk [(5, .fn lambda), (3, .weak 0 Toto.fn2), (0, .fn 1)]).m_observers
      = [(5, .fn lambda)] ++ (3, .weak 0 Toto.fn2) :: [(0, .fn 1)] ∧
    NoThrow (fun c => c == Call.fn 1 8) [(5, .fn lambda)] 8 ⟨[1], [], []⟩ ∧
    0 < (final (for_each (fun c => c == Call.fn 1 8) 8 [(5, .fn lambda)]
      ⟨[1], [], []⟩)).strong 0) ∧
    (∃ k, k ≤ [((0 : id_type), observer_type.fn 1)].length ∧
      invocations ⟨[1], [], []⟩ (final (Subject.notify (fun c => c == Call.fn 1 8)
          ⟨[(5, .fn lambda), (3, .weak 0 Toto.fn2), (0, .fn 1)]⟩ 8 ⟨[1], [], []⟩))
        = [((5 : id_type), observer_type.fn lambda)].map (fun e => (e, 8))
          ++ ((3, .weak 0 Toto.fn2), 8)
          :: ([((0 : id_type), observer_type.fn 1)].take k).map (fun e => (e, 8)) ∧
      ran ⟨[1], [], []⟩ (final (Subject.notify (fun c => c == Call.fn 1 8)
          ⟨[(5, .fn lambda), (3, .weak 0 Toto.fn2), (0, .fn 1)]⟩ 8 ⟨[1], [], []⟩))
        = [((5 : id_type), observer_type.fn lambda)].filterMap
            (fun e => e.2.effect 8 ⟨[1], [], []⟩)
          ++ Call.method (.managed 0) Toto.fn2 8
          :: ([((0 : id_type), observer_type.fn 1)].take k).filterMap
            (fun e => e.2.effect 8 ⟨[1], [], []⟩)) :=
  ⟨⟨rfl, by unfold NoThrow; decide, by decide⟩,
    (live_shared_entry_invoked_once (fun c => c == Call.fn 1 8)
      ⟨[(5, .fn lambda), (3, .weak 0 Toto.fn2), (0, .fn 1)]⟩ 8 ⟨[1], [], []⟩
      3 0 Toto.fn2 [(5, .fn lambda)] [(0, .fn 1)] rfl (by unfold NoThrow; decide)
      (by decide)).2.2.2.1⟩

/-- C8: the scenario of `main.cpp`: `notify(8)` returns, and the code it runs is the
lambda, `fn0` on `t0` and `fn2` on the object of `t1`, each exactly once with `8`, and
nothing else: no `fn1`, `fn3`, `fn4`, `fn5` or `fn6` on any object. -/
theorem main_invokes_lambda_fn0_fn2 :
    returned main = true ∧
    (final main).out.Perm [Call.fn lambda 8, Call.method (.automatic 0) Toto.fn0 8,
      Call.method (.managed 1) Toto.fn2 8] ∧
    (final main).out.count (Call.fn lambda 8) = 1 ∧
    (final main).out.count (Call.method (.automatic 0) Toto.fn0 8) = 1 ∧
    (final main).out.count (Call.method (.managed 1) Toto.fn2 8) = 1 ∧
    (final main).out.length = 3 ∧
    (∀ object i, ∀ m ∈ [Toto.fn1, Toto.fn3, Toto.fn4, Toto.fn5, Toto.fn6],
      Call.method object m i ∉ (final main).out) := by
  have hout : (final main).out = [Call.method (.managed 1) Toto.fn2 8,
      Call.method (.automatic 0) Toto.fn0 8, Call.fn lambda 8] := by decide
  refine ⟨by decide, by decide, by decide, by decide, by decide, by decide, ?_⟩
  intro object i m hm hmem
  rw [hout] at hmem
  simp only [List.mem_cons, List.mem_singleton, Call.method.injEq, List.not_mem_nil,
    or_false, false_or] at hmem hm
  rcases hmem with ⟨_, h, _⟩ | ⟨_, h, _⟩ | h
  · subst h; revert hm; decide
  · subst h; revert hm; decide
  · exact Call.noConfusion h

/-- Counterexample to C9 as stated: `f` and `g` both throw.  Both pairs are stored, but
`notify(8)` calls one of them only, the first in iteration order, in either order.  The
same behind an empty `std::function` under another identifier: neither is called,
though no caller code throws. -/
theorem same_id_entries_one_throws :
    ((Subject.empty.subscribe (.fn 0) 100).2.subscribe (.fn 1) 100).2.m_observers.Perm
      [(100, .fn 1), (100, .fn 0)] ∧
    invocations ⟨[], [], []⟩ (final (Subject.notify (fun _ => true)
        ⟨[(100, .fn 1), (100, .fn 0)]⟩ 8 ⟨[], [], []⟩))
      = [((100, .fn 1), 8)] ∧
    ran ⟨[], [], []⟩ (final (Subject.notify (fun _ => true)
        ⟨[(100, .fn 1), (100, .fn 0)]⟩ 8 ⟨[], [], []⟩))
      = [Call.fn 1 8] ∧
    ran ⟨[], [], []⟩ (final (Subject.notify (fun _ => true)
        ⟨[(100, .fn 0), (100, .fn 1)]⟩ 8 ⟨[], [], []⟩))
      = [Call.fn 0 8] ∧
    ran ⟨[], [], []⟩ (final (Subject.notify (fun _ => false)
        ⟨[(7, .empty), (100, .fn 0), (100, .fn 1)]⟩ 8 ⟨[], [], []⟩)) = [] := by
  decide

/-- C9 (amended): two subscriptions under one explicit `id` are independent entries: after
`subscribe(f, id)` then `subscribe(g, id)` both pairs are stored next to the earlier
ones (two more entries under `id`, the second not replacing the first).  For every
arrangement `l` of that registry as iteration order, a following `notify(x)` in which no
call of a stored callable fails (none is an empty `std::function`, no caller code
throws) calls both, once each, with `x`, next to the earlier entries. -/
theorem same_id_entries_independent (throws : Call → Bool) (s : Subject)
    (f g : observer_type) (id : id_type) (x : Arg) (w : World) (l : List Entry)
    (hl : l.Perm ((s.subscribe f id).2.subscribe g id).2.m_observers)
    (hno : NoThrow throws l x w) :
    ((s.subscribe f id).2.subscribe g id).2.m_observers.Perm
      ((id, g) :: (id, f) :: s.m_observers) ∧
    (id, f) ∈ ((s.subscribe f id).2.subscribe g id).2.m_observers ∧
    (id, g) ∈ ((s.subscribe f id).2.subscribe g id).2.m_observers ∧
    ((s.subscribe f id).2.subscribe g id).2.m_observers.countP (fun e => e.1 = id)
      = s.m_observers.countP (fun e => e.1 = id) + 2 ∧
    (∀ e, ((s.subscribe f id).2.subscribe g id).2.m_observers.count e
      = s.m_observers.count e + (if e = (id, f) then 1 else 0)
        + (if e = (id, g) then 1 else 0)) ∧
    returned (Subject.notify throws ⟨l⟩ x w) = true ∧
    (invocations w (final (Subject.notify throws ⟨l⟩ x w))).Perm
      (((id, g), x) :: ((id, f), x) :: s.m_observers.map (fun e => (e, x))) ∧
    (∀ e, (invocations w (final (Subject.notify throws ⟨l⟩ x w))).count (e, x)
      = s.m_observers.count e + (if e = (id, f) then 1 else 0)
        + (if e = (id, g) then 1 else 0)) ∧
    (∀ ev ∈ invocations w (final (Subject.notify throws ⟨l⟩ x w)), ev.2 = x) ∧
    (ran w (final (Subject.notify throws ⟨l⟩ x w))).Perm
      ((g.effect x w).toList ++ ((f.effect x w).toList
        ++ s.m_observers.filterMap (fun e => e.2.effect x w))) := by
  have hcount : ∀ e, ((s.subscribe f id).2.subscribe g id).2.m_observers.count e
      = s.m_observers.count e + (if e = (id, f) then 1 else 0)
        + (if e = (id, g) then 1 else 0) := by
    intro e
    have h1 := (subscribe_adds_one_entry_count (s.subscribe f id).2 g id e)
    have h2 := (subscribe_adds_one_entry_count s f id e)
    rw [h1, h2]
  have hfin := notify_ok throws ⟨l⟩ x w hno
  have hinv : invocations w (final (Subject.notify throws ⟨l⟩ x w))
      = l.map (fun e => (e, x)) := by
    rw [hfin]; exact invocations_append _ _ _ rfl
  have hl2 : l.Perm ((id, g) :: (id, f) :: s.m_observers) := hl
  refine ⟨List.Perm.refl _, ?_, ?_, by simp [Subject.subscribe], hcount, ?_, ?_, ?_, ?_, ?_⟩
  · exact List.mem_cons_of_mem _ (List.mem_cons_self _ _)
  · exact List.mem_cons_self _ _
  · rw [hfin]; rfl
  · rw [hinv]
    exact hl2.map _
  · intro e
    rw [hinv, count_pair_with, count_perm hl, hcount]
  · intro ev hev
    rw [hinv] at hev
    obtain ⟨e, _, rfl⟩ := List.mem_map.mp hev
    rfl
  · rw [hfin, ran_append _ _ _ rfl]
    have hp := hl2.filterMap (fun e => e.2.effect x w)
    rw [← toList_append_filterMap, ← toList_append_filterMap] at hp
    exact hp

/-- Witness of C9 (amended): `fn5` and `fn6` of `main.cpp`, both under identifier `100`,
on a live object, iterated in the order of subscription. -/
theorem same_id_entries_independent_witness :
    ([(100, observer_type.weak 0 Toto.fn5), (100, .weak 0 Toto.fn6)].Perm
      ((Subject.empty.subscribe (.weak 0 Toto.fn5) 100).2.subscribe
        (.weak 0 Toto.fn6) 100).2.m_observers ∧
    NoThrow (fun _ => false) [(100, .weak 0 Toto.fn5), (100, .weak 0 Toto.fn6)] 8
      ⟨[1], [], []⟩) ∧
    (invocations ⟨[1], [], []⟩ (final
        (Subject.notify (fun _ => false)
          ⟨[(100, .weak 0 Toto.fn5), (100, .weak 0 Toto.fn6)]⟩ 8 ⟨[1], [], []⟩))).Perm
      (((100, .weak 0 Toto.fn6), 8) :: ((100, .weak 0 Toto.fn5), 8)
        :: Subject.empty.m_observers.map (fun e => (e, 8))) :=
  ⟨⟨by decide, by unfold NoThrow; decide⟩,
    (same_id_entries_independent (fun _ => false) Subject.empty (.weak 0 Toto.fn5)
      (.weak 0 Toto.fn6) 100 8 ⟨[1], [], []⟩
      [(100, .weak 0 Toto.fn5), (100, .weak 0 Toto.fn6)] (by decide)
      (by unfold NoThrow; decide)).2.2.2.2.2.2.1⟩

/-! ## Failure of a callable, raw pointers -/

/-- C11: a callable that fails during a pass is not caught.  If the call of an entry
leaves with an exception (its code throws, or it is an empty `std::function`), and no
call of an entry before it in iteration order does, `notify` leaves with that
exception; every entry before the failing one has been called exactly once, the failing
one once, its code has run up to the throw, and no entry after it is called in that
pass.  A pass returns exactly when no call fails. -/
theorem notify_propagates_failure (throws : Call → Bool) (s : Subject) (x : Arg)
    (w : World) (before after : List Entry) (e : Entry)
    (hs : s.m_observers = before ++ e :: after)
    (hno : NoThrow throws before x w)
    (he : e.2.fails throws x w = true) :
    returned (e.2.call throws x w) = false ∧
    returned (s.notify throws x w) = false ∧
    invocations w (final (s.notify throws x w))
      = before.map (fun a => (a, x)) ++ [(e, x)] ∧
    ran w (final (s.notify throws x w))
      = before.filterMap (fun a => a.2.effect x w) ++ (e.2.effect x w).toList ∧
    (invocations w (final (s.notify throws x w))).length = before.length + 1 ∧
    (final (s.notify throws x w)).use_count = w.use_count ∧
    (∀ s1 : Subject,
      returned (s1.notify throws x w) = true ↔ NoThrow throws s1.m_observers x w) := by
  have hfin : s.notify throws x w = .error { w with
      invoked := w.invoked ++ (before.map (fun a => (a, x)) ++ [(e, x)])
      out := w.out ++ (before.filterMap (fun a => a.2.effect x w)
        ++ (e.2.effect x w).toList) } := by
    unfold Subject.notify
    rw [hs]
    exact (for_each_reaches throws x w before after e hno).1 he
  rw [hfin]
  refine ⟨?_, rfl, invocations_append _ _ _ rfl, ran_append _ _ _ rfl, ?_, rfl,
    fun s1 => for_each_returned_iff throws x s1.m_observers w⟩
  · rw [returned_call, he]; rfl
  · rw [invocations_append _ _ _ rfl]
    simp

/-- Witness of C11: three plain callables, the second of which throws. -/
theorem notify_propagates_failure_witness :
    ((Subject.mk [(0, .fn 0), (1, .fn 1), (2, .fn 2)]).m_observers
      = [(0, .fn 0)] ++ (1, .fn 1) :: [(2, .fn 2)] ∧
    NoThrow (fun c => c == Call.fn 1 8) [(0, .fn 0)] 8 ⟨[], [], []⟩ ∧
    (observer_type.fn 1).fails (fun c => c == Call.fn 1 8) 8 ⟨[], [], []⟩ = true) ∧
    invocations ⟨[], [], []⟩ (final (Subject.notify (fun c => c == Call.fn 1 8)
        ⟨[(0, .fn 0), (1, .fn 1), (2, .fn 2)]⟩ 8 ⟨[], [], []⟩))
      = [((0 : id_type), observer_type.fn 0)].map (fun a => (a, 8)) ++ [((1, .fn 1), 8)] :=
  ⟨⟨rfl, by unfold NoThrow; decide, by decide⟩,
    (notify_propagates_failure (fun c => c == Call.fn 1 8)
      ⟨[(0, .fn 0), (1, .fn 1), (2, .fn 2)]⟩ 8 ⟨[], [], []⟩
      [(0, .fn 0)] [(2, .fn 2)] (1, .fn 1) rfl (by unfold NoThrow; decide)
      (by decide)).2.2.1⟩

/-- Counterexample to C12 as stated: `fn0` subscribed through the raw pointer `&t0`,
behind a plain callable that throws: `notify(8)` calls the plain callable first and
leaves with its exception, `fn0` is not run on `t0`.  The same behind an empty
`std::function`, though no caller code throws. -/
theorem raw_pointer_entry_behind_throwing_entry :
    (0, observer_type.raw (.automatic 0) Toto.fn0)
      ∈ ((Subject.empty.subscribe_ptr (.automatic 0) Toto.fn0 0).2.subscribe
          (.fn 0) 1).2.m_observers ∧
    ran ⟨[], [], []⟩ (final (Subject.notify (fun c => c == Call.fn 0 8)
        ⟨[(1, .fn 0), (0, .raw (.automatic 0) Toto.fn0)]⟩ 8 ⟨[], [], []⟩))
      = [Call.fn 0 8] ∧
    (ran ⟨[], [], []⟩ (final (Subject.notify (fun c => c == Call.fn 0 8)
        ⟨[(1, .fn 0), (0, .raw (.automatic 0) Toto.fn0)]⟩ 8
        ⟨[], [], []⟩))).count (Call.method (.automatic 0) Toto.fn0 8) = 0 ∧
    ran ⟨[], [], []⟩ (final (Subject.notify (fun _ => false)
        ⟨[(1, .empty), (0, .raw (.automatic 0) Toto.fn0)]⟩ 8 ⟨[], [], []⟩)) = [] := by
  decide

/-- C12 (amended): an entry made through a raw object pointer and a method; `before` and
`after` are the entries around it in iteration order, whatever that order is.  One call
of its callable runs the method on that very object exactly once with `x`.  If no call
of a callable before it fails (none is an empty `std::function`, none of their code
throws), the pass calls the entry exactly once, at its place, and runs the method on
that object exactly once with `x` there. -/
theorem raw_pointer_entry_invoked_once (throws : Call → Bool) (s : Subject) (x : Arg)
    (w : World) (id : id_type) (object : Ptr) (method : Method) (before after : List Entry)
    (hs : s.m_observers = before ++ (id, .raw object method) :: after)
    (hno : NoThrow throws before x w) :
    (∀ s0 : Subject,
      (s0.subscribe_ptr object method id).1 = id ∧
      (id, .raw object method) ∈ (s0.subscribe_ptr object method id).2.m_observers ∧
      (s0.subscribe_ptr object method id).2.m_observers.count (id, .raw object method)
        = s0.m_observers.count (id, .raw object method) + 1) ∧
    (final ((observer_type.raw object method).call throws x w)).out
      = w.out ++ [Call.method object method x] ∧
    (∃ k, k ≤ after.length ∧
      invocations w (final (s.notify throws x w))
        = before.map (fun e => (e, x)) ++ ((id, .raw object method), x)
          :: (after.take k).map (fun e => (e, x)) ∧
      ran w (final (s.notify throws x w))
        = before.filterMap (fun e => e.2.effect x w)
          ++ Call.method object method x
          :: (after.take k).filterMap (fun e => e.2.effect x w)) ∧
    (NoThrow throws s.m_observers x w →
      returned (s.notify throws x w) = true ∧
      ran w (final (s.notify throws x w))
        = before.filterMap (fun e => e.2.effect x w)
          ++ Call.method object method x
          :: after.filterMap (fun e => e.2.effect x w)) := by
  have heff : (observer_type.raw object method).effect x w
      = some (Call.method object method x) := rfl
  have hreach := for_each_reaches throws x w before after (id, .raw object method) hno
  refine ⟨fun s0 => ⟨rfl, List.mem_cons_self _ _, ?_⟩, ?_, ?_, ?_⟩
  · have hc := subscribe_adds_one_entry_count s0 (.raw object method) id
      (id, .raw object method)
    simpa [Subject.subscribe_ptr] using hc
  · rw [call_eq, heff]
    by_cases ht : (observer_type.raw object method).fails throws x w = true <;>
      simp [ht, final]
  · obtain ⟨k, hk, hi, ho⟩ := hreach.2.1
    refine ⟨k, hk, ?_, ?_⟩
    · unfold Subject.notify
      rw [hs]
      exact invocations_append _ _ _ hi
    · unfold Subject.notify
      rw [hs]
      apply ran_append
      rw [ho]
      simp [heff]
  · intro hall
    have hfin := notify_ok throws s x w hall
    refine ⟨by rw [hfin]; rfl, ?_⟩
    rw [hfin, ran_append _ _ _ rfl, hs]
    simp [List.filterMap_append, List.filterMap_cons, heff]

/-- Witness of C12 (amended): `fn0` of `main.cpp` subscribed on `&t0`, with the lambda
before it and another callable after it in iteration order. -/
theorem raw_pointer_entry_invoked_once_witness :
    ((Subject.mk [(0, .fn lambda), (1, .raw (.automatic 0) Toto.fn0), (2, .fn 1)]).m_observers
      = [(0, .fn lambda)] ++ (1, .raw (.automatic 0) Toto.fn0) :: [(2, .fn 1)] ∧
    NoThrow (fun c => c == Call.fn 1 8) [(0, .fn lambda)] 8 ⟨[], [], []⟩) ∧
    (∃ k, k ≤ [((2 : id_type), observer_type.fn 1)].length ∧
      invocations ⟨[], [], []⟩ (final (Subject.notify (fun c => c == Call.fn 1 8)
          ⟨[(0, .fn lambda), (1, .raw (.automatic 0) Toto.fn0), (2, .fn 1)]⟩ 8
          ⟨[], [], []⟩))
        = [((0 : id_type), observer_type.fn lambda)].map (fun e => (e, 8))
          ++ ((1, .raw (.automatic 0) Toto.fn0), 8)
          :: ([((2 : id_type), observer_type.fn 1)].take k).map (fun e => (e, 8)) ∧
      ran ⟨[], [], []⟩ (final (Subject.notify (fun c => c == Call.fn 1 8)
          ⟨[(0, .fn lambda), (1, .raw (.automatic 0) Toto.fn0), (2, .fn 1)]⟩ 8
          ⟨[], [], []⟩))
        = [((0 : id_type), observer_type.fn lambda)].filterMap
            (fun e => e.2.effect 8 ⟨[], [], []⟩)
          ++ Call.method (.automatic 0) Toto.fn0 8
          :: ([((2 : id_type), observer_type.fn 1)].take k).filterMap
            (fun e => e.2.effect 8 ⟨[], [], []⟩)) :=
  ⟨⟨rfl, by unfold NoThrow; decide⟩,
    (raw_pointer_entry_invoked_once (fun c => c == Call.fn 1 8)
      ⟨[(0, .fn lambda), (1, .raw (.automatic 0) Toto.fn0), (2, .fn 1)]⟩ 8 ⟨[], [], []⟩
      1 (.automatic 0) Toto.fn0 [(0, .fn lambda)] [(2, .fn 1)] rfl
      (by unfold NoThrow; decide)).2.2.1⟩

/-! ## The shared-handle overload -/

/-- The destruction of a strong handle lowers the strong count by one. -/
theorem strong_release (w : World) (h : Nat) : (w.release h).strong h = w.strong h - 1 := by
  unfold World.release World.strong
  by_cases hlt : h < w.use_count.length
  · simp [List.getD_eq_getElem?_getD, List.getElem?_set, hlt]
  · have hnone : w.use_count[h]? = none := List.getElem?_eq_none (Nat.le_of_not_lt hlt)
    simp [List.getD_eq_getElem?_getD, List.getElem?_set, hlt, hnone]

/-- The object of `std::make_shared` has one strong owner, the handle returned. -/
theorem strong_make_shared (w : World) : w.make_shared.2.strong w.make_shared.1 = 1 := by
  simp [World.make_shared, World.strong, List.getD_eq_getElem?_getD]

/-- C13: the overload on a `shared_ptr` is the overload on `std::weak_ptr(object)`: it
returns the same identifier and gives the same registry, whose new entry holds the weak
handle only.  As a statement of a program it leaves the heap, hence every strong count,
as it was; a pass leaves the strong counts as they were, whatever throws; and the
destruction of a strong handle of the caller lowers the count by one, so that when it
was the last one the object is destroyed, entry or not: the stored callable then
returns without running the method. -/
theorem subscribe_shared_is_subscribe_weak (throws : Call → Bool) (s : Subject)
    (object : Nat) (method : Method) (id : id_type) (x : Arg) (w : World) :
    s.subscribe_shared object method id = s.subscribe_weak object method id ∧
    (s.subscribe_shared object method id).1 = id ∧
    (s.subscribe_shared object method id).2.m_observers
      = (id, .weak object method) :: s.m_observers ∧
    (∀ p : Program,
      (Op.exec throws (.subscribe_id (.shared object method) id) p).2.world = p.world ∧
      (Op.exec throws (.subscribe (.shared object method)) p).2.world = p.world ∧
      Op.exec throws (.subscribe_id (.shared object method) id) p
        = Op.exec throws (.subscribe_id (.weak object method) id) p ∧
      Op.exec throws (.subscribe (.shared object method)) p
        = Op.exec throws (.subscribe (.weak object method)) p) ∧
    (final ((s.subscribe_shared object method id).2.notify throws x w)).use_count
      = w.use_count ∧
    (w.release object).strong object = w.strong object - 1 ∧
    (w.strong object = 1 →
      (w.release object).strong object = 0 ∧
      (observer_type.weak object method).call throws x (w.release object)
        = .ok (w.release object) ∧
      ran (w.release object)
          (final ((Subject.empty.subscribe_shared object method id).2.notify throws x
            (w.release object))) = []) ∧
    ((w.make_shared.2.release w.make_shared.1).strong w.make_shared.1 = 0) := by
  have hrel := strong_release w object
  refine ⟨rfl, rfl, rfl, fun p => ⟨rfl, rfl, rfl, rfl⟩, ?_, hrel, ?_, ?_⟩
  · obtain ⟨_, _, _, _, hu⟩ := for_each_invoked throws x
      (s.subscribe_shared object method id).2.m_observers w
    exact hu
  · intro h1
    have h0 : (w.release object).strong object = 0 := by rw [hrel, h1]
    refine ⟨h0, ?_, ?_⟩
    · simp [observer_type.call, World.lock, h0]
    · have hn : (observer_type.weak object method).effect x (w.release object) = none := by
        simp [observer_type.effect, h0]
      have hpass : (Subject.empty.subscribe_shared object method id).2.notify throws x
          (w.release object)
          = .ok { w.release object with
              invoked := (w.release object).invoked ++ [((id, .weak object method), x)] } := by
        have hnf : (observer_type.weak object method).fails throws x (w.release object)
            = false := by
          simp [observer_type.fails, h0]
        show for_each throws x [(id, .weak object method)] (w.release object) = _
        rw [for_each_cons]
        simp [hn, hnf, for_each]
      rw [hpass]
      simp [final, ran]
  · rw [strong_release, strong_make_shared]

/-- Witness of C13: the block around `fn1` in `main.cpp`: the last strong handle `t` of
object `0` is destroyed after the subscription. -/
theorem subscribe_shared_is_subscribe_weak_witness :
    World.strong ⟨[1], [], []⟩ 0 = 1 ∧
    (World.release ⟨[1], [], []⟩ 0).strong 0 = 0 ∧
    (observer_type.weak 0 Toto.fn1).call (fun _ => false) 8 (World.release ⟨[1], [], []⟩ 0)
      = .ok (World.release ⟨[1], [], []⟩ 0) :=
  ⟨by decide,
    ((subscribe_shared_is_subscribe_weak (fun _ => false) Subject.empty 0 Toto.fn1 2 8
      ⟨[1], [], []⟩).2.2.2.2.2.2.1 (by decide)).1,
    ((subscribe_shared_is_subscribe_weak (fun _ => false) Subject.empty 0 Toto.fn1 2 8
      ⟨[1], [], []⟩).2.2.2.2.2.2.1 (by decide)).2.1⟩

/-! ## The generator under any sequence of statements -/

/-- The values of a counter modulo `2^32` from `c` on: `c` followed by the values from
its successor on. -/
theorem mod_seq_cons (c n : Nat) (hc : c < UINT32_SIZE) :
    c :: (List.range n).map (fun k => ((c + 1) % UINT32_SIZE + k) % UINT32_SIZE)
      = (List.range (n + 1)).map (fun k => (c + k) % UINT32_SIZE) := by
  rw [List.range_succ_eq_map, List.map_cons, List.map_map]
  congr 1
  · simp [Nat.mod_eq_of_lt hc]
  · apply List.map_congr_left
    intro k _
    simp only [Function.comp, Nat.succ_eq_add_one]
    rw [Nat.mod_add_mod]
    congr 1
    omega

/-- Values `c, c + 1, ...` modulo `2^32`, at most `2^32` of them, are pairwise distinct. -/
theorem mod_seq_nodup (c n : Nat) (hn : n ≤ UINT32_SIZE) :
    ((List.range n).map (fun k => (c + k) % UINT32_SIZE)).Nodup := by
  apply List.Nodup.map_on _ (List.nodup_range _)
  intro i hi j hj hij
  have hi1 : i < UINT32_SIZE := lt_of_lt_of_le (List.mem_range.mp hi) hn
  have hj1 : j < UINT32_SIZE := lt_of_lt_of_le (List.mem_range.mp hj) hn
  have hmod : i ≡ j [MOD UINT32_SIZE] := Nat.ModEq.add_left_cancel' c hij
  exact Nat.ModEq.eq_of_lt_of_lt hmod hi1 hj1

/-- More than `2^32` of them are not: the first value comes back at position `2^32`. -/
theorem mod_seq_repeats (c n : Nat) (hc : c < UINT32_SIZE) (hn : UINT32_SIZE < n) :
    ((List.range n).map (fun k => (c + k) % UINT32_SIZE))[0]? = some c ∧
    ((List.range n).map (fun k => (c + k) % UINT32_SIZE))[UINT32_SIZE]? = some c ∧
    ¬ ((List.range n).map (fun k => (c + k) % UINT32_SIZE)).Nodup := by
  have h0 : 0 < n := lt_trans UINT32_SIZE_pos hn
  have e0 : ((List.range n).map (fun k => (c + k) % UINT32_SIZE))[0]? = some c := by
    rw [List.getElem?_map, List.getElem?_range h0]
    simp [Nat.mod_eq_of_lt hc]
  have eN : ((List.range n).map (fun k => (c + k) % UINT32_SIZE))[UINT32_SIZE]? = some c := by
    rw [List.getElem?_map, List.getElem?_range hn]
    simp [Nat.mod_eq_of_lt hc]
  refine ⟨e0, eN, fun hnd => ?_⟩
  have hl0 : 0 < ((List.range n).map (fun k => (c + k) % UINT32_SIZE)).length := by
    simpa using h0
  have hlN : UINT32_SIZE < ((List.range n).map (fun k => (c + k) % UINT32_SIZE)).length := by
    simpa using hn
  have g0 := (List.getElem?_eq_getElem hl0).symm.trans e0
  have gN := (List.getElem?_eq_getElem hlN).symm.trans eN
  have heq : ((List.range n).map (fun k => (c + k) % UINT32_SIZE))[0]
      = ((List.range n).map (fun k => (c + k) % UINT32_SIZE))[UINT32_SIZE] :=
    Option.some.inj (g0.trans gN.symm)
  have hz : 0 = UINT32_SIZE := (hnd.getElem_inj_iff).mp heq
  exact absurd hz (Nat.ne_of_lt UINT32_SIZE_pos)

theorem generated_append (l1 l2 : List (id_type × Bool)) :
    generated (l1 ++ l2) = generated l1 ++ generated l2 := by
  simp [generated]

theorem exec_static_of_not_generates (throws : Call → Bool) (op : Op) (p : Program)
    (h : op.generates = false) :
    (op.exec throws p).2.static_id = p.static_id ∧ generated (op.exec throws p).1.toList = [] := by
  cases op with
  | subscribe a => simp [Op.generates] at h
  | subscribe_id a id => exact ⟨rfl, rfl⟩
  | unsubscribe key => exact ⟨rfl, rfl⟩
  | clear => exact ⟨rfl, rfl⟩
  | notify args => exact ⟨rfl, rfl⟩

theorem exec_subscribe (throws : Call → Bool) (a : Subscriber) (p : Program) :
    (Op.exec throws (.subscribe a) p).1 = some (p.static_id, true) ∧
    (Op.exec throws (.subscribe a) p).2.static_id = (p.static_id + 1) % UINT32_SIZE := by
  constructor
  · simp only [Op.exec]
    rw [subscribe_default_fst]
  · simp only [Op.exec]
    rw [subscribe_default_static]

theorem exec_all_cons (throws : Call → Bool) (op : Op) (rest : List Op) (p : Program) :
    (exec_all throws (op :: rest) p).1
      = (op.exec throws p).1.toList ++ (exec_all throws rest (op.exec throws p).2).1 := rfl

/-- The identifiers made by `getId()` during a sequence of statements depend on the
static at the start and on the number of `subscribe` calls without `id` only. -/
theorem exec_all_generated (throws : Call → Bool) (ops : List Op) (p : Program)
    (hc : p.static_id < UINT32_SIZE) :
    generated (exec_all throws ops p).1
      = (List.range (ops.countP Op.generates)).map
          (fun k => (p.static_id + k) % UINT32_SIZE) := by
  induction ops generalizing p with
  | nil => rfl
  | cons op rest ih =>
    rw [exec_all_cons, generated_append]
    by_cases hg : op.generates = true
    · cases op with
      | subscribe a =>
        have he := exec_subscribe throws a p
        rw [he.1, ih _ (by rw [he.2]; exact Nat.mod_lt _ UINT32_SIZE_pos), he.2,
          List.countP_cons_of_pos _ _ hg]
        exact mod_seq_cons p.static_id _ hc
      | subscribe_id a id => simp [Op.generates] at hg
      | unsubscribe key => simp [Op.generates] at hg
      | clear => simp [Op.generates] at hg
      | notify args => simp [Op.generates] at hg
    · have hf : op.generates = false := by simpa using hg
      have he := exec_static_of_not_generates throws op p hf
      rw [he.2, List.nil_append, ih _ (by rw [he.1]; exact hc), he.1,
        List.countP_cons_of_neg _ _ hg]

/-- When the identifiers made by `getId()` are pairwise distinct, two identifiers
returned can be equal only if the caller passed one of them. -/
theorem pairwise_of_generated_nodup (log : List (id_type × Bool))
    (h : (generated log).Nodup) :
    log.Pairwise (fun a b => a.1 = b.1 → a.2 = false ∨ b.2 = false) := by
  induction log with
  | nil => exact List.Pairwise.nil
  | cons a rest ih =>
    by_cases ha : a.2 = true
    · have hg : generated (a :: rest) = a.1 :: generated rest := by
        simp [generated, List.filter_cons, ha]
      rw [hg, List.nodup_cons] at h
      refine List.Pairwise.cons ?_ (ih h.2)
      intro b hb hab
      by_cases hb2 : b.2 = true
      · exfalso
        apply h.1
        rw [hab]
        exact List.mem_map.mpr ⟨b, List.mem_filter.mpr ⟨hb, hb2⟩, rfl⟩
      · right; simpa using hb2
    · have hg : generated (a :: rest) = generated rest := by
        simp [generated, List.filter_cons, ha]
      rw [hg] at h
      refine List.Pairwise.cons ?_ (ih h)
      intro b _ _
      left; simpa using ha

/-- Conversely, identifiers made by `getId()` that repeat give two equal identifiers
returned, neither of which the caller passed. -/
theorem generated_nodup_of_pairwise (log : List (id_type × Bool))
    (h : log.Pairwise (fun a b => a.1 = b.1 → a.2 = false ∨ b.2 = false)) :
    (generated log).Nodup := by
  induction log with
  | nil => exact List.nodup_nil
  | cons a rest ih =>
    rw [List.pairwise_cons] at h
    by_cases ha : a.2 = true
    · have hg : generated (a :: rest) = a.1 :: generated rest := by
        simp [generated, List.filter_cons, ha]
      rw [hg, List.nodup_cons]
      refine ⟨fun hmem => ?_, ih h.2⟩
      obtain ⟨b, hb, hba⟩ := List.mem_map.mp hmem
      have hb1 := List.mem_filter.mp hb
      rcases h.1 b hb1.1 hba.symm with h1 | h1
      · rw [ha] at h1; exact Bool.noConfusion h1
      · rw [hb1.2] at h1; exact Bool.noConfusion h1
    · have hg : generated (a :: rest) = generated rest := by
        simp [generated, List.filter_cons, ha]
      rw [hg]
      exact ih h.2

/-- C14: the code at the failing input.  From program start, `subscribe` without `id`
returns `0`, `unsubscribe(0)` frees it, and after `2^32` more calls of `subscribe`
without `id` the last one returns `0` again: the 32-bit static of `getId` has wrapped,
the generator hands out an identifier it has handed out, and two identifiers returned
are equal though the caller passed neither. -/
theorem generated_id_returned_again :
    (exec_all (fun _ => false) [.subscribe (.observer (.fn 0)), .unsubscribe 0]
      ⟨getId_init, Subject.empty, ⟨[], [], []⟩⟩).2.subject.m_observers = [] ∧
    (generated (exec_all (fun _ => false)
      (.subscribe (.observer (.fn 0)) :: .unsubscribe 0
        :: List.replicate UINT32_SIZE (.subscribe (.observer (.fn 0))))
      ⟨getId_init, Subject.empty, ⟨[], [], []⟩⟩).1)[0]? = some 0 ∧
    (generated (exec_all (fun _ => false)
      (.subscribe (.observer (.fn 0)) :: .unsubscribe 0
        :: List.replicate UINT32_SIZE (.subscribe (.observer (.fn 0))))
      ⟨getId_init, Subject.empty, ⟨[], [], []⟩⟩).1)[UINT32_SIZE]? = some 0 ∧
    ¬ (generated (exec_all (fun _ => false)
      (.subscribe (.observer (.fn 0)) :: .unsubscribe 0
        :: List.replicate UINT32_SIZE (.subscribe (.observer (.fn 0))))
      ⟨getId_init, Subject.empty, ⟨[], [], []⟩⟩).1).Nodup ∧
    ¬ (exec_all (fun _ => false)
      (.subscribe (.observer (.fn 0)) :: .unsubscribe 0
        :: List.replicate UINT32_SIZE (.subscribe (.observer (.fn 0))))
      ⟨getId_init, Subject.empty, ⟨[], [], []⟩⟩).1.Pairwise
        (fun a b => a.1 = b.1 → a.2 = false ∨ b.2 = false) := by
  have hcount : (Op.subscribe (.observer (.fn 0)) :: Op.unsubscribe 0
      :: List.replicate UINT32_SIZE (Op.subscribe (.observer (.fn 0)))).countP Op.generates
      = UINT32_SIZE + 1 := by
    rw [List.countP_cons_of_pos _ _ (by rfl), List.countP_cons_of_neg _ _ (by decide),
      List.countP_replicate]
    simp [Op.generates]
  have hgen := exec_all_generated (fun _ => false)
    (Op.subscribe (.observer (.fn 0)) :: Op.unsubscribe 0
      :: List.replicate UINT32_SIZE (Op.subscribe (.observer (.fn 0))))
    ⟨getId_init, Subject.empty, ⟨[], [], []⟩⟩ UINT32_SIZE_pos
  rw [hcount] at hgen
  have hrep := mod_seq_repeats getId_init (UINT32_SIZE + 1) UINT32_SIZE_pos
    (Nat.lt_succ_self _)
  refine ⟨by decide, ?_, ?_, ?_, ?_⟩
  · rw [hgen]; exact hrep.1
  · rw [hgen]; exact hrep.2.1
  · rw [hgen]; exact hrep.2.2
  · intro hp
    have hnd := generated_nodup_of_pairwise _ hp
    rw [hgen] at hnd
    exact hrep.2.2 hnd

/-- Up to the failing input the property holds: under any sequence of statements,
`unsubscribe`, `clear`, `notify` and
`subscribe` with an explicit `id` leave the static of `getId` unchanged, and each
`subscribe` without `id`, through any of the four overloads, returns its value and
advances it by one modulo `2^32`.  The identifiers the generator hands out are thus
`c, c + 1, ...` modulo `2^32`; as long as there are at most `2^32` calls without `id`
they are pairwise distinct, so that an identifier freed by `unsubscribe` or `clear` is
not returned again, and two identifiers returned are equal only if the caller passed at
least one of them. -/
theorem generator_advances_only_on_auto_subscribe (throws : Call → Bool) (ops : List Op)
    (p : Program) (hc : p.static_id < UINT32_SIZE) :
    (∀ (op : Op) (q : Program), op.generates = false →
      (op.exec throws q).2.static_id = q.static_id) ∧
    (∀ (a : Subscriber) (q : Program),
      (Op.exec throws (.subscribe a) q).1 = some (q.static_id, true) ∧
      (Op.exec throws (.subscribe a) q).2.static_id = (q.static_id + 1) % UINT32_SIZE) ∧
    generated (exec_all throws ops p).1
      = (List.range (ops.countP Op.generates)).map
          (fun k => (p.static_id + k) % UINT32_SIZE) ∧
    (ops.countP Op.generates ≤ UINT32_SIZE →
      (generated (exec_all throws ops p).1).Nodup ∧
      (exec_all throws ops p).1.Pairwise
        (fun a b => a.1 = b.1 → a.2 = false ∨ b.2 = false)) := by
  have hgen := exec_all_generated throws ops p hc
  refine ⟨fun op q h => (exec_static_of_not_generates throws op q h).1,
    fun a q => exec_subscribe throws a q, hgen, fun hn => ?_⟩
  have hnd : (generated (exec_all throws ops p).1).Nodup := by
    rw [hgen]; exact mod_seq_nodup _ _ hn
  exact ⟨hnd, pairwise_of_generated_nodup _ hnd⟩

/-- An instance: the statements of `main.cpp` in small: the identifier `0` freed by
`unsubscribe` is not returned by the later calls. -/
theorem generator_advances_only_on_auto_subscribe_witness :
    getId_init < UINT32_SIZE ∧
    generated (exec_all (fun _ => false)
      [.subscribe (.observer (.fn 0)), .unsubscribe 0, .subscribe (.shared 0 Toto.fn4),
        .subscribe_id (.shared 0 Toto.fn5) 100, .clear, .notify 8,
        .subscribe (.ptr (.automatic 0) Toto.fn0)]
      ⟨getId_init, Subject.empty, ⟨[1], [], []⟩⟩).1
      = (List.range 3).map (fun k => (getId_init + k) % UINT32_SIZE) ∧
    (generated (exec_all (fun _ => false)
      [.subscribe (.observer (.fn 0)), .unsubscribe 0, .subscribe (.shared 0 Toto.fn4),
        .subscribe_id (.shared 0 Toto.fn5) 100, .clear, .notify 8,
        .subscribe (.ptr (.automatic 0) Toto.fn0)]
      ⟨getId_init, Subject.empty, ⟨[1], [], []⟩⟩).1).Nodup :=
  ⟨UINT32_SIZE_pos,
    (generator_advances_only_on_auto_subscribe (fun _ => false)
      [.subscribe (.observer (.fn 0)), .unsubscribe 0, .subscribe (.shared 0 Toto.fn4),
        .subscribe_id (.shared 0 Toto.fn5) 100, .clear, .notify 8,
        .subscribe (.ptr (.automatic 0) Toto.fn0)]
      ⟨getId_init, Subject.empty, ⟨[1], [], []⟩⟩ UINT32_SIZE_pos).2.2.1,
    ((generator_advances_only_on_auto_subscribe (fun _ => false)
      [.subscribe (.observer (.fn 0)), .unsubscribe 0, .subscribe (.shared 0 Toto.fn4),
        .subscribe_id (.shared 0 Toto.fn5) 100, .clear, .notify 8,
        .subscribe (.ptr (.automatic 0) Toto.fn0)]
      ⟨getId_init, Subject.empty, ⟨[1], [], []⟩⟩ UINT32_SIZE_pos).2.2.2 (by decide)).1⟩

/-! ## One static for every instance -/

theorem subscribe_across_cons (first : Bool) (a : Subscriber) (rest : List (Bool × Subscriber))
    (ss : Subject × Subject) (c : Nat) :
    ∃ ss1 : Subject × Subject,
      (subscribe_across ((first, a) :: rest) ss c).1
        = c :: (subscribe_across rest ss1 ((c + 1) % UINT32_SIZE)).1 ∧
      (subscribe_across ((first, a) :: rest) ss c).2.2
        = (subscribe_across rest ss1 ((c + 1) % UINT32_SIZE)).2.2 := by
  cases first with
  | true =>
    refine ⟨((ss.1.subscribe_default a c).2.1, ss.2), ?_, ?_⟩
    · simp only [subscribe_across, if_true]
      rw [subscribe_default_static ss.1 a c, subscribe_default_fst ss.1 a c]
    · simp only [subscribe_across, if_true]
      rw [subscribe_default_static ss.1 a c]
  | false =>
    refine ⟨(ss.1, (ss.2.subscribe_default a c).2.1), ?_, ?_⟩
    · simp only [subscribe_across, Bool.false_eq_true, if_false]
      rw [subscribe_default_static ss.2 a c, subscribe_default_fst ss.2 a c]
    · simp only [subscribe_across, Bool.false_eq_true, if_false]
      rw [subscribe_default_static ss.2 a c]

/-- The identifiers returned by calls without `id` spread over two instances: the same
values as on one instance, whichever instance each call is made on. -/
theorem subscribe_across_ids (l : List (Bool × Subscriber)) (ss : Subject × Subject)
    (c : Nat) (hc : c < UINT32_SIZE) :
    (subscribe_across l ss c).1
      = (List.range l.length).map (fun k => (c + k) % UINT32_SIZE) := by
  induction l generalizing ss c with
  | nil => rfl
  | cons fa rest ih =>
    obtain ⟨first, a⟩ := fa
    obtain ⟨ss1, h1, _⟩ := subscribe_across_cons first a rest ss c
    rw [h1, ih ss1 _ (Nat.mod_lt _ UINT32_SIZE_pos), List.length_cons]
    exact mod_seq_cons c _ hc

/-- Without a wrap of the static they are `c, c + 1, ..., c + n - 1`. -/
theorem subscribe_across_ids_nowrap (l : List (Bool × Subscriber)) (ss : Subject × Subject)
    (c : Nat) (h : c + l.length ≤ UINT32_SIZE) :
    (subscribe_across l ss c).1 = List.range' c l.length := by
  induction l generalizing ss c with
  | nil => rfl
  | cons fa rest ih =>
    obtain ⟨first, a⟩ := fa
    obtain ⟨ss1, h1, _⟩ := subscribe_across_cons first a rest ss c
    rw [h1, List.length_cons, List.range'_succ]
    congr 1
    cases rest with
    | nil => rfl
    | cons b rest2 =>
      simp only [List.length_cons] at h
      have hlt : c + 1 < UINT32_SIZE := by omega
      rw [Nat.mod_eq_of_lt hlt]
      apply ih
      simp only [List.length_cons]
      omega

/-- C15: the code at the failing input.  From program start, `2^32` calls of `subscribe`
without `id` on one instance, then one on another instance.  The 32-bit static of
`getId` has wrapped: the identifiers handed out across the two instances are not
increasing, the call on the second instance returns `0`, which the first call on the
first instance returned. -/
theorem ids_across_instances_wrap :
    (subscribe_across
      (List.replicate UINT32_SIZE (true, Subscriber.observer (.fn 0))
        ++ [(false, Subscriber.observer (.fn 1))])
      (Subject.empty, Subject.empty) getId_init).1[0]? = some 0 ∧
    (subscribe_across
      (List.replicate UINT32_SIZE (true, Subscriber.observer (.fn 0))
        ++ [(false, Subscriber.observer (.fn 1))])
      (Subject.empty, Subject.empty) getId_init).1[UINT32_SIZE]? = some 0 ∧
    ¬ List.Pairwise (fun a b => a < b) (subscribe_across
      (List.replicate UINT32_SIZE (true, Subscriber.observer (.fn 0))
        ++ [(false, Subscriber.observer (.fn 1))])
      (Subject.empty, Subject.empty) getId_init).1 := by
  have hlen : (List.replicate UINT32_SIZE (true, Subscriber.observer (.fn 0))
      ++ [(false, Subscriber.observer (.fn 1))]).length = UINT32_SIZE + 1 := by
    rw [List.length_append, List.length_replicate]; rfl
  have hids := subscribe_across_ids
    (List.replicate UINT32_SIZE (true, Subscriber.observer (.fn 0))
      ++ [(false, Subscriber.observer (.fn 1))])
    (Subject.empty, Subject.empty) getId_init UINT32_SIZE_pos
  rw [hlen] at hids
  have hrep := mod_seq_repeats getId_init (UINT32_SIZE + 1) UINT32_SIZE_pos
    (Nat.lt_succ_self _)
  rw [hids]
  exact ⟨hrep.1, hrep.2.1, fun hp => hrep.2.2 (hp.imp (fun hab => Nat.ne_of_lt hab))⟩

/-- Up to the failing input the property holds: the static of `getId` is one counter for
every `Subject<void(int)>`.
A `subscribe` without `id` on one instance advances the identifier that the next one on
another instance returns: alone it would return `c`, after the other instance it returns
`c + 1` modulo `2^32`, a different value.  The identifiers handed out across the
instances are one sequence `c, c + 1, ...` modulo `2^32`, whichever instance each call is
made on; it is strictly increasing as long as the static does not wrap, and pairwise
distinct over at most `2^32` calls. -/
theorem static_counter_shared_across_instances (l : List (Bool × Subscriber))
    (ss : Subject × Subject) (a b : Subscriber) (c : Nat) (hc : c < UINT32_SIZE) :
    (ss.2.subscribe_default b c).1 = c ∧
    (ss.2.subscribe_default b (ss.1.subscribe_default a c).2.2).1
      = (c + 1) % UINT32_SIZE ∧
    (c + 1) % UINT32_SIZE ≠ c ∧
    (subscribe_across [(true, a), (false, b)] ss c).1 = [c, (c + 1) % UINT32_SIZE] ∧
    (subscribe_across l ss c).1
      = (List.range l.length).map (fun k => (c + k) % UINT32_SIZE) ∧
    (c + l.length ≤ UINT32_SIZE →
      (subscribe_across l ss c).1 = List.range' c l.length ∧
      List.Pairwise (fun i j => i < j) (subscribe_across l ss c).1) ∧
    (l.length ≤ UINT32_SIZE → (subscribe_across l ss c).1.Nodup) := by
  have hN : UINT32_SIZE = 4294967296 := by unfold UINT32_SIZE; norm_num
  have hids := subscribe_across_ids l ss c hc
  refine ⟨subscribe_default_fst _ _ _, ?_, ?_, ?_, hids, fun h => ?_, fun h => ?_⟩
  · rw [subscribe_default_fst, subscribe_default_static]
  · rw [hN] at hc ⊢
    omega
  · rw [subscribe_across_ids _ ss c hc]
    simp [List.range_succ, Nat.mod_eq_of_lt hc]
  · rw [subscribe_across_ids_nowrap l ss c h]
    exact ⟨rfl, List.pairwise_lt_range' c l.length⟩
  · rw [hids]
    exact mod_seq_nodup _ _ h

/-- An instance: the lambda on one instance, then `fn0` on another, from program start. -/
theorem static_counter_shared_across_instances_witness :
    getId_init < UINT32_SIZE ∧
    ((Subject.empty, Subject.empty).2.subscribe_default (.ptr (.automatic 0) Toto.fn0)
      ((Subject.empty, Subject.empty).1.subscribe_default (.observer (.fn lambda))
        getId_init).2.2).1 = (getId_init + 1) % UINT32_SIZE ∧
    (getId_init + [(true, Subscriber.observer (.fn lambda))].length ≤ UINT32_SIZE ∧
    (subscribe_across [(true, Subscriber.observer (.fn lambda))]
      (Subject.empty, Subject.empty) getId_init).1 = List.range' getId_init 1) :=
  ⟨UINT32_SIZE_pos,
    (static_counter_shared_across_instances [(true, .observer (.fn lambda))]
      (Subject.empty, Subject.empty) (.observer (.fn lambda))
      (.ptr (.automatic 0) Toto.fn0) getId_init UINT32_SIZE_pos).2.1,
    by decide,
    ((static_counter_shared_across_instances [(true, .observer (.fn lambda))]
      (Subject.empty, Subject.empty) (.observer (.fn lambda))
      (.ptr (.automatic 0) Toto.fn0) getId_init UINT32_SIZE_pos).2.2.2.2.2.1
        (by decide)).1⟩

/-! ## Frame of `unsubscribe`, round trip, the counter -/

/-- Counterexample to C16 as stated: two callables that both throw, under identifiers `1`
and `2`, and `unsubscribe(3)`.  Both entries are kept, but the following `notify(8)`
calls the first in iteration order only, in either order.  The same with an empty
`std::function` kept ahead of a callable that does not throw. -/
theorem unsubscribe_other_id_then_throwing_pass :
    (Subject.unsubscribe ⟨[(1, .fn 0), (2, .fn 1)]⟩ 3).m_observers
      = [(1, .fn 0), (2, .fn 1)] ∧
    invocations ⟨[], [], []⟩ (final (Subject.notify (fun _ => true)
        (Subject.unsubscribe ⟨[(1, .fn 0), (2, .fn 1)]⟩ 3) 8 ⟨[], [], []⟩))
      = [((1, .fn 0), 8)] ∧
    (invocations ⟨[], [], []⟩ (final (Subject.notify (fun _ => true)
        (Subject.unsubscribe ⟨[(1, .fn 0), (2, .fn 1)]⟩ 3) 8 ⟨[], [], []⟩))).count
      ((2, .fn 1), 8) = 0 ∧
    (invocations ⟨[], [], []⟩ (final (Subject.notify (fun _ => true)
        (Subject.unsubscribe ⟨[(2, .fn 1), (1, .fn 0)]⟩ 3) 8 ⟨[], [], []⟩))).count
      ((1, .fn 0), 8) = 0 ∧
    (invocations ⟨[], [], []⟩ (final (Subject.notify (fun _ => false)
        (Subject.unsubscribe ⟨[(1, .empty), (2, .fn 1)]⟩ 3) 8 ⟨[], [], []⟩))).count
      ((2, .fn 1), 8) = 0 := by
  decide

/-- C16 (amended): `unsubscribe(id)` touches the entries under `id` only: for `j ≠ id`
the entries under `j` are the same before and after, in the same order, with the same
callables and multiplicities; so a following `notify(x)` in which no call of a stored
callable fails (none is an empty `std::function`, no caller code throws) still calls
each of them exactly as often as it is registered, with `x`. -/
theorem unsubscribe_keeps_other_ids (throws : Call → Bool) (s : Subject) (id j : id_type)
    (x : Arg) (w : World) (hj : j ≠ id) :
    (s.unsubscribe id).m_observers.filter (fun e => e.1 = j)
      = s.m_observers.filter (fun e => e.1 = j) ∧
    (∀ e : Entry, e.1 = j → (s.unsubscribe id).m_observers.count e = s.m_observers.count e) ∧
    (NoThrow throws (s.unsubscribe id).m_observers x w →
      ∀ e : Entry, e.1 = j →
        (invocations w (final ((s.unsubscribe id).notify throws x w))).count (e, x)
          = s.m_observers.count e) := by
  have hcount : ∀ e : Entry, e.1 = j →
      (s.unsubscribe id).m_observers.count e = s.m_observers.count e := by
    intro e he
    simp only [Subject.unsubscribe]
    induction s.m_observers with
    | nil => rfl
    | cons a rest ih =>
      have ih1 : (rest.filter (fun pair => !decide (pair.1 = id))).count e = rest.count e := by
        simpa using ih
      by_cases ha : a.1 = id
      · have hae : (a == e) = false := by
          simp only [beq_eq_false_iff_ne, ne_eq]
          intro h; rw [h, he] at ha; exact hj ha
        simp [List.filter_cons, ha, List.count_cons, hae, ih1]
      · simp [List.filter_cons, ha, List.count_cons, ih1]
  refine ⟨?_, hcount, fun hno e he => ?_⟩
  · simp only [Subject.unsubscribe, List.filter_filter]
    apply List.filter_congr
    intro e _
    by_cases h : e.1 = j
    · simp [h, hj]
    · simp [h]
  · rw [notify_ok throws _ x w hno, invocations_append _ _ _ rfl, count_pair_with]
    exact hcount e he

/-- Witness of C16 (amended): `unsubscribe(100)` next to the lambda under identifier `0`,
then a pass in which nothing fails. -/
theorem unsubscribe_keeps_other_ids_witness :
    ((0 : id_type) ≠ 100 ∧
    NoThrow (fun _ => false) (Subject.unsubscribe ⟨[(100, .weak 0 Toto.fn6),
        (100, .weak 0 Toto.fn5), (0, .fn lambda)]⟩ 100).m_observers 8 ⟨[1], [], []⟩) ∧
    (Subject.unsubscribe ⟨[(100, .weak 0 Toto.fn6), (100, .weak 0 Toto.fn5),
        (0, .fn lambda)]⟩ 100).m_observers.filter (fun e => e.1 = 0)
      = (Subject.mk [(100, .weak 0 Toto.fn6), (100, .weak 0 Toto.fn5),
        (0, .fn lambda)]).m_observers.filter (fun e => e.1 = 0) ∧
    (invocations ⟨[1], [], []⟩ (final ((Subject.unsubscribe ⟨[(100, .weak 0 Toto.fn6),
        (100, .weak 0 Toto.fn5), (0, .fn lambda)]⟩ 100).notify (fun _ => false) 8
        ⟨[1], [], []⟩))).count (((0 : id_type), observer_type.fn lambda), 8)
      = (Subject.mk [(100, .weak 0 Toto.fn6), (100, .weak 0 Toto.fn5),
        (0, .fn lambda)]).m_observers.count (0, .fn lambda) :=
  ⟨⟨by decide, by unfold NoThrow; decide⟩,
    (unsubscribe_keeps_other_ids (fun _ => false)
      ⟨[(100, .weak 0 Toto.fn6), (100, .weak 0 Toto.fn5), (0, .fn lambda)]⟩ 100 0 8
      ⟨[1], [], []⟩ (by decide)).1,
    (unsubscribe_keeps_other_ids (fun _ => false)
      ⟨[(100, .weak 0 Toto.fn6), (100, .weak 0 Toto.fn5), (0, .fn lambda)]⟩ 100 0 8
      ⟨[1], [], []⟩ (by decide)).2.2 (by unfold NoThrow; decide) (0, .fn lambda) rfl⟩

/-- C17: `subscribe(f, id)` followed by `unsubscribe` of the identifier returned gives
back the registry when it had no entry under `id`; when it had some, it does not: the
result is the registry without any entry under `id`, the earlier ones included. -/
theorem subscribe_unsubscribe_round_trip (s : Subject) (f : observer_type) (id : id_type) :
    ((∀ e ∈ s.m_observers, e.1 ≠ id) →
      (s.subscribe f id).2.unsubscribe (s.subscribe f id).1 = s) ∧
    ((∃ e ∈ s.m_observers, e.1 = id) →
      (s.subscribe f id).2.unsubscribe (s.subscribe f id).1 ≠ s) ∧
    (s.subscribe f id).2.unsubscribe (s.subscribe f id).1 = s.unsubscribe id := by
  have hres : (s.subscribe f id).2.unsubscribe (s.subscribe f id).1 = s.unsubscribe id := by
    simp [Subject.subscribe, Subject.unsubscribe]
  refine ⟨fun h => ?_, fun h hs => ?_, hres⟩
  · rw [hres]
    cases s with
    | mk l =>
      simp only [Subject.unsubscribe, Subject.mk.injEq, List.filter_eq_self]
      intro e he
      simpa using h e he
  · obtain ⟨e, he, hid⟩ := h
    rw [hres] at hs
    have hmem : e ∈ (s.unsubscribe id).m_observers := by rw [hs]; exact he
    have hne : e.1 ≠ id := by
      simpa [Subject.unsubscribe] using (List.mem_filter.mp hmem).2
    exact hne hid

/-- Witness of C17: `fn4` of `main.cpp` under a free identifier, and under one in use. -/
theorem subscribe_unsubscribe_round_trip_witness :
    ((∀ e ∈ (Subject.mk [(0, .fn lambda)]).m_observers, e.1 ≠ 5) ∧
      ((Subject.mk [(0, .fn lambda)]).subscribe (.weak 0 Toto.fn4) 5).2.unsubscribe
        ((Subject.mk [(0, .fn lambda)]).subscribe (.weak 0 Toto.fn4) 5).1
        = ⟨[(0, .fn lambda)]⟩) ∧
    ((∃ e ∈ (Subject.mk [(0, .fn lambda)]).m_observers, e.1 = 0) ∧
      ((Subject.mk [(0, .fn lambda)]).subscribe (.weak 0 Toto.fn4) 0).2.unsubscribe
        ((Subject.mk [(0, .fn lambda)]).subscribe (.weak 0 Toto.fn4) 0).1
        ≠ ⟨[(0, .fn lambda)]⟩) :=
  ⟨⟨by decide,
      (subscribe_unsubscribe_round_trip ⟨[(0, .fn lambda)]⟩ (.weak 0 Toto.fn4) 5).1
        (by decide)⟩,
    ⟨⟨(0, .fn lambda), by decide, rfl⟩,
      (subscribe_unsubscribe_round_trip ⟨[(0, .fn lambda)]⟩ (.weak 0 Toto.fn4) 0).2.1
        ⟨(0, .fn lambda), by decide, rfl⟩⟩⟩

theorem getId_static_eq (n : Nat) : getId_static n = n % UINT32_SIZE := by
  induction n with
  | zero => rfl
  | succ k ih =>
    simp only [getId_static, getId]
    rw [ih, Nat.mod_add_mod]

/-- C18: `getId` is a 32-bit post-increment counter that starts at `0`: call number `n`,
counting from `0`, returns `n mod 2^32` and leaves the static at `(n + 1) mod 2^32`.
The first identifier is `0`, and call number `2^32` returns `0` again, the identifier
that call number `0` returned. -/
theorem getId_call_mod (n : Nat) :
    getId_call n = n % 2 ^ 32 ∧
    getId_static (n + 1) = (n + 1) % 2 ^ 32 ∧
    getId_call 0 = 0 ∧
    getId_call (2 ^ 32) = 0 ∧
    getId_call (2 ^ 32) = getId_call 0 ∧
    (∀ m, m < 2 ^ 32 → getId_call m = m) := by
  have hcall : ∀ m, getId_call m = m % 2 ^ 32 := by
    intro m
    show getId_static m = m % 2 ^ 32
    exact getId_static_eq m
  refine ⟨hcall n, getId_static_eq (n + 1), ?_, ?_, ?_, ?_⟩
  · rw [hcall]; rfl
  · rw [hcall, Nat.mod_self]
  · rw [hcall, hcall, Nat.mod_self]; rfl
  · intro m hm
    rw [hcall, Nat.mod_eq_of_lt hm]

end obs
